/-
Verification of the scheduler subsystem of agentica-daemon against its
natural-language specification.

The Python sources under src/scheduler are shallowly embedded as Lean
definitions: machine integers are Int (Python ints are unbounded),
dictionaries are association lists, fallible code returns Option/Except,
and external effects (SQLite, the file system, HTTP, collaborator
callbacks) are modelled as explicit state or environment records.
-/
import Mathlib

namespace AgenticaScheduler

/-! ## Schedule calculator (src/scheduler/schedule.py) -/

/-- The while-loop body of `_compute_every_next` (schedule.py:75-76):
`while next_run <= current_ms: next_run += interval_ms`.
Termination relies on the loop only being entered with a positive
interval, which the source guarantees by the early return on
`interval_ms <= 0`. -/
def everyCatchUp (intervalMs currentMs : Int) (hpos : 0 < intervalMs)
    (next : Int) : Int :=
  if next ≤ currentMs then
    everyCatchUp intervalMs currentMs hpos (next + intervalMs)
  else
    next
termination_by (currentMs + 1 - next).toNat
decreasing_by
  simp_wf
  omega

/-- Model of `_compute_every_next` (schedule.py:58-78): next run for an interval
schedule. Returns none for a non-positive interval; `current + interval`
when there is no previous run; otherwise advances `last + interval` past
`current` by whole intervals. -/
def compute_every_next (intervalMs currentMs : Int)
    (lastRunAtMs : Option Int) : Option Int :=
  if h : intervalMs ≤ 0 then
    none
  else
    match lastRunAtMs with
    | none => some (currentMs + intervalMs)
    | some last =>
        some (everyCatchUp intervalMs currentMs (by omega) (last + intervalMs))

/-- Model of `_compute_at_next` (schedule.py:50-55): a one-shot schedule fires at
`at_ms` if still in the future, otherwise never again. -/
def compute_at_next (atMs currentMs : Int) : Option Int :=
  if atMs > currentMs then some atMs else none

/-! ### Python string primitives used by schedule.py -/

/-- Splitting a character list on whitespace runs, accumulating the
current (reversed) token: the recursion behind Python `str.split()`. -/
def pySplitChars : List Char → List Char → List String
  | [], acc => if acc.isEmpty then [] else [String.mk acc.reverse]
  | c :: rest, acc =>
      if c.isWhitespace then
        if acc.isEmpty then pySplitChars rest []
        else String.mk acc.reverse :: pySplitChars rest []
      else pySplitChars rest (c :: acc)

/-- Python `str.split()` with no argument: split on whitespace runs,
dropping empty pieces. -/
def pySplit (s : String) : List String :=
  pySplitChars s.data []

/-- Decimal digits to a number; none when a non-digit appears or the
list is empty. -/
def digitsToNat : List Char → Option Nat
  | [] => none
  | cs => go cs 0
where
  go : List Char → Nat → Option Nat
    | [], acc => some acc
    | c :: rest, acc =>
        if c.isDigit then go rest (acc * 10 + (c.toNat - 48)) else none

/-- The ASCII characters Python `str.isspace` reports as whitespace,
which `int()` strips from both ends of its argument: tab through
carriage return (9-13), space (32), and the separator controls 28-31. -/
def pyAsciiSpace (c : Char) : Bool :=
  (9 ≤ c.toNat && c.toNat ≤ 13) || c.toNat == 32
    || (28 ≤ c.toNat && c.toNat ≤ 31)

/-- Strip `pyAsciiSpace` characters from both ends, as `int()` does. -/
def stripAsciiSpace (cs : List Char) : List Char :=
  ((cs.dropWhile pyAsciiSpace).reverse.dropWhile pyAsciiSpace).reverse

/-- Digit groups after the first digit of a Python integer literal
string: PEP 515 allows a single underscore only between two digits
(`int("1_0") = 10`; `"1__0"`, `"1_"` and `"_1"` raise ValueError). -/
def digitGroups : List Char → Nat → Option Nat
  | [], acc => some acc
  | c :: rest, acc =>
      if c == '_' then
        match rest with
        | c2 :: rest2 =>
            if c2.isDigit then digitGroups rest2 (acc * 10 + (c2.toNat - 48))
            else none
        | [] => none
      else if c.isDigit then digitGroups rest (acc * 10 + (c.toNat - 48))
      else none

/-- Digits of a Python integer literal string: a leading digit followed
by underscore-separated digit groups. -/
def digitsToNatPy : List Char → Option Nat
  | [] => none
  | c :: rest =>
      if c.isDigit then digitGroups rest (c.toNat - 48) else none

/-- Model of Python `int(s)` in base 10, exact for ASCII strings:
surrounding ASCII whitespace is stripped, an optional sign is consumed,
and the rest must be digits in PEP 515 underscore groups, so
`int("1_0") = 10` is accepted. Non-ASCII decimal digits (Unicode
category Nd), which `int()` also accepts, are outside the model; the
theorems that conclude a parse failure therefore restrict their field
to ASCII characters. Returns none where `int` raises `ValueError`. -/
def pyIntOfString (s : String) : Option Int :=
  match stripAsciiSpace s.data with
  | '-' :: rest => (digitsToNatPy rest).map (fun n => -(n : Int))
  | '+' :: rest => (digitsToNatPy rest).map (fun n => (n : Int))
  | cs => (digitsToNatPy cs).map (fun n => (n : Int))

/-- Python `str.isdigit()` restricted to ASCII decimal digits (the only
digits appearing in cron expressions): true iff nonempty and all digits. -/
def pyIsdigit (s : String) : Bool :=
  !s.data.isEmpty && s.data.all Char.isDigit

/-- Python non-negative `int(s)` as a Nat (used after an `isdigit`
guard). -/
def pyNatOfDigits (s : String) : Option Nat :=
  digitsToNat s.data

/-- Python `s.startswith(p)`. -/
def pyStartsWith (s p : String) : Bool :=
  p.data.isPrefixOf s.data

/-- Python `s[n:]`. -/
def pyDrop (s : String) (n : Nat) : String :=
  String.mk (s.data.drop n)

/-- Python `c in s` for a single character. -/
def pyContainsChar (s : String) (c : Char) : Bool :=
  s.data.contains c

/-! ### Civil calendar (model of Python `datetime` arithmetic)

The cron fallback manipulates timezone-aware `datetime` values. We model
an aware datetime by its epoch instant in milliseconds plus the local
civil fields obtained through a fixed UTC offset. The two conversions
below are the standard days/civil bijection for the proleptic Gregorian
calendar, which is exactly the calendar `datetime` implements. -/

/-- Days since 1970-01-01 of the civil date (y, m, d). -/
def daysFromCivil (y m d : Int) : Int :=
  let y2 := if m ≤ 2 then y - 1 else y
  let era := Int.fdiv y2 400
  let yoe := y2 - era * 400
  let mp := (m + 9) % 12
  let doy := Int.fdiv (153 * mp + 2) 5 + d - 1
  let doe := yoe * 365 + Int.fdiv yoe 4 - Int.fdiv yoe 100 + doy
  era * 146097 + doe - 719468

/-- Civil date (y, m, d) of a count of days since 1970-01-01. -/
def civilFromDays (z : Int) : Int × Int × Int :=
  let z2 := z + 719468
  let era := Int.fdiv z2 146097
  let doe := z2 - era * 146097
  let yoe := Int.fdiv (doe - Int.fdiv doe 1460 + Int.fdiv doe 36524 - Int.fdiv doe 146096) 365
  let y := yoe + era * 400
  let doy := doe - (365 * yoe + Int.fdiv yoe 4 - Int.fdiv yoe 100)
  let mp := Int.fdiv (5 * doy + 2) 153
  let d := doy - Int.fdiv (153 * mp + 2) 5 + 1
  let m := if mp < 10 then mp + 3 else mp - 9
  (if m ≤ 2 then y + 1 else y, m, d)

/-- Gregorian leap year, as `calendar.isleap` / `datetime` use it. -/
def isLeapYear (y : Int) : Bool :=
  (y % 4 == 0 && y % 100 != 0) || y % 400 == 0

/-- Number of days in a month; `datetime.replace(day=...)` raises
`ValueError` for any day beyond this bound. -/
def daysInMonth (y m : Int) : Int :=
  if m == 2 then (if isLeapYear y then 29 else 28)
  else if m == 4 || m == 6 || m == 9 || m == 11 then 30
  else 31

/-- Fixed UTC offset, in seconds, of the IANA zones this repository's
configuration uses. Asia/Shanghai has been UTC+8 without daylight saving
throughout the era relevant to the scheduler; an unknown zone name makes
`ZoneInfo` raise, which the fallback's bare `except` turns into None. -/
def tzOffsetSeconds (tz : String) : Option Int :=
  if tz = "Asia/Shanghai" then some (8 * 3600) else none

/-! ### Cron fallback and validation -/

/-- Model of `_compute_cron_fallback` (schedule.py:107-159): handles the daily
pattern `m h * * *` and the minute-step pattern `*/n * * * *` without
croniter. Every `ValueError`/`ZeroDivisionError` Python would raise
inside the `try` block (including `replace(day=day+1)` overflowing the
month, `replace(hour=24)`, and an out-of-range hour/minute field) is
swallowed by the bare `except` and yields None. -/
def compute_cron_fallback (expression timezone : String) (currentMs : Int) :
    Option Int :=
  match pySplit expression with
  | [minute, hour, day, month, weekday] =>
    match tzOffsetSeconds timezone with
    | none => none
    | some offSec =>
      let offMs := offSec * 1000
      let localMs := currentMs + offMs
      let localDay := Int.fdiv localMs 86400000
      let msOfDay := Int.emod localMs 86400000
      let ymd := civilFromDays localDay
      let hh := Int.fdiv msOfDay 3600000
      if day = "*" && month = "*" && weekday = "*"
          && pyIsdigit minute && pyIsdigit hour then
        match pyNatOfDigits minute, pyNatOfDigits hour with
        | some targetMinute, some targetHour =>
          if targetHour ≤ 23 && targetMinute ≤ 59 then
            let nextMs := localDay * 86400000 + (targetHour : Int) * 3600000
                + (targetMinute : Int) * 60000 - offMs
            if nextMs ≤ currentMs then
              if ymd.2.2 + 1 ≤ daysInMonth ymd.1 ymd.2.1 then
                some (daysFromCivil ymd.1 ymd.2.1 (ymd.2.2 + 1) * 86400000
                  + (targetHour : Int) * 3600000
                  + (targetMinute : Int) * 60000 - offMs)
              else none
            else some nextMs
          else none
        | _, _ => none
      else if pyStartsWith minute "*/" && hour = "*" && day = "*"
          && month = "*" && weekday = "*" then
        match pyIntOfString (pyDrop minute 2) with
        | none => none
        | some iv =>
          if iv = 0 then none
          else
            let currentMinute := Int.fdiv (Int.emod msOfDay 3600000) 60000
            let nextMinute := (Int.fdiv currentMinute iv + 1) * iv
            if nextMinute ≥ 60 then
              if hh + 1 ≤ 23 then
                some (localDay * 86400000 + (hh + 1) * 3600000
                  + Int.emod nextMinute 60 * 60000 - offMs)
              else none
            else
              if 0 ≤ nextMinute then
                some (localDay * 86400000 + hh * 3600000
                  + nextMinute * 60000 - offMs)
              else none
      else none
  | _ => none

/-- Model of `_compute_cron_next` (schedule.py:81-104) in the environment the C4
and C8 claims fix: croniter is unavailable, so the `ImportError` branch
delegates to the fallback. -/
def compute_cron_next (expression timezone : String) (currentMs : Int) :
    Option Int :=
  compute_cron_fallback expression timezone currentMs

/-- Model of `validate_cron_expression` (schedule.py:162-202), croniter-unavailable
branch: five whitespace-separated fields, each either `*`, a step whose
suffix parses as an int, anything containing a range or list separator
(assumed valid by the source), or a literal int. -/
def validate_cron_expression (expression : String) : Bool :=
  let parts := pySplit expression
  if parts.length ≠ 5 then false
  else parts.all (fun part =>
    if part = "*" then true
    else if pyStartsWith part "*/" then (pyIntOfString (pyDrop part 2)).isSome
    else if pyContainsChar part '-' || pyContainsChar part ',' then true
    else (pyIntOfString part).isSome)

/-! ### Schedule dispatch -/

/-- Schedule variants (types.py: AtSchedule, EverySchedule, CronSchedule). -/
inductive Schedule where
  | at (at_ms : Int)
  | every (interval_ms : Int)
  | cron (expression : String) (timezone : String)
deriving DecidableEq, Repr

/-- Model of `compute_next_run_at_ms` (schedule.py:22-47): dispatch on the schedule
variant (with `current_ms` always passed explicitly, as the timer does). -/
def compute_next_run_at_ms (schedule : Schedule) (currentMs : Int)
    (lastRunAtMs : Option Int) : Option Int :=
  match schedule with
  | .at atMs => compute_at_next atMs currentMs
  | .every intervalMs => compute_every_next intervalMs currentMs lastRunAtMs
  | .cron expression timezone => compute_cron_next expression timezone currentMs

/-! ## Data model (src/scheduler/types.py, src/scheduler/models.py) -/

/-- A YAML/JSON-like dynamic value, the model of the `Any`-typed data
the store reads from and writes to scheduler.yaml. Dictionaries are
association lists in insertion order, as Python dicts preserve it. -/
inductive Val where
  | str (s : String)
  | int (n : Int)
  | bool (b : Bool)
  | null
  | list (xs : List Val)
  | dict (xs : List (String × Val))

/-- First-match association-list lookup: Python `dict.get(k)` (dict keys
are unique, so first match is the match). -/
def alookup {α : Type} : List (String × α) → String → Option α
  | [], _ => none
  | (k, v) :: rest, key => if k = key then some v else alookup rest key

/-- Python truthiness of a YAML value (`if d.get("schedule"): ...`). -/
def vtruthy : Val → Bool
  | .str s => s ≠ ""
  | .int n => n ≠ 0
  | .bool b => b
  | .null => false
  | .list xs => !xs.isEmpty
  | .dict xs => !xs.isEmpty

/-- Model of `d.get(k, default)` for a string-valued key. The source never guards
these reads; the values are assumed well-typed, as the source's
dataclass constructors assume. -/
def getStr (d : List (String × Val)) (k dflt : String) : String :=
  match alookup d k with
  | some (.str s) => s
  | _ => dflt

/-- Model of `d.get(k, default)` for an integer-valued key. -/
def getInt (d : List (String × Val)) (k : String) (dflt : Int) : Int :=
  match alookup d k with
  | some (.int n) => n
  | _ => dflt

/-- Model of `d.get(k, default)` for a boolean-valued key. -/
def getBool (d : List (String × Val)) (k : String) (dflt : Bool) : Bool :=
  match alookup d k with
  | some (.bool b) => b
  | _ => dflt

/-- Model of `d.get(k, {})` for a mapping-valued key. -/
def getDict (d : List (String × Val)) (k : String) :
    List (String × Val) :=
  match alookup d k with
  | some (.dict xs) => xs
  | _ => []

/-- Model of `d.get(k, default)` for a list-of-strings key (`on_status`). -/
def getStrList (d : List (String × Val)) (k : String)
    (dflt : List String) : List String :=
  match alookup d k with
  | some (.list vs) => vs.map (fun v => match v with | .str s => s | _ => "")
  | _ => dflt

/-- JobStatus (types.py:241-247). -/
inductive JobStatus where
  | pending | active | paused | completed | failed
deriving DecidableEq, Repr

/-- RunStatus (types.py:250-255). -/
inductive RunStatus where
  | ok | failed | skipped | timeout
deriving DecidableEq, Repr

/-- TaskChainPayload (types.py:198-217), as used in `on_complete`. -/
structure TaskChainPayload where
  next_job_id : String := ""
  on_status : List String := ["ok"]
deriving DecidableEq, Repr

/-- Payload variants (types.py:108-221), discriminated by `kind`. -/
inductive Payload where
  | system_event (message channel chat_id : String)
  | agent_turn (prompt agent_id : String) (context : List (String × Val))
      (notify_channel notify_chat_id : String) (timeout_seconds : Int)
  | webhook (url method : String) (headers body : List (String × Val))
      (timeout_seconds : Int)
  | task_chain (p : TaskChainPayload)

/-- Model of `AgentTurnPayload()` with the dataclass defaults, the default
payload of a ScheduledJob (models.py:79). -/
def defaultAgentTurn : Payload :=
  .agent_turn "" "main" [] "telegram" "" 300

/-- Session target kind. Modelled from the spec: `target: SessionTarget —
{kind ∈ {main, isolated}, trigger_heartbeat, report_to_main}`; the class
itself is referenced from types.py by executor.py and store.py but its
definition is not among the provided sources. -/
inductive SessionTargetKind where
  | main | isolated
deriving DecidableEq, Repr

/-- Modelled from the spec: SessionTarget with the documented default
`{kind: isolated, trigger_heartbeat: true, report_to_main: true}`
(spec §3 and §6.1); the class definition is not among the provided
sources. -/
structure SessionTarget where
  kind : SessionTargetKind := .isolated
  trigger_heartbeat : Bool := true
  report_to_main : Bool := true
deriving DecidableEq, Repr

/-- JobState (models.py:22-52): mutable runtime state, all defaults. -/
structure JobState where
  next_run_at_ms : Option Int := none
  last_run_at_ms : Option Int := none
  last_status : Option RunStatus := none
  run_count : Int := 0
  failure_count : Int := 0
  consecutive_failures : Int := 0
  last_error : Option String := none
deriving DecidableEq, Repr

/-- ScheduledJob (models.py:55-103). The uuid4/now() field defaults are
external effects; they are supplied explicitly wherever a job is built,
and default to neutral values here. -/
structure ScheduledJob where
  id : String := ""
  user_id : String := ""
  agent_id : String := "main"
  name : String := ""
  description : String := ""
  enabled : Bool := true
  schedule : Schedule := .at 0
  payload : Payload := defaultAgentTurn
  target : SessionTarget := {}
  max_retries : Int := 3
  retry_delay_ms : Int := 60000
  on_complete : List TaskChainPayload := []
  state : JobState := {}
  status : JobStatus := .pending
  created_at_ms : Int := 0
  updated_at_ms : Int := 0

/-- JobPatch (models.py:169-198): partial update of config fields. -/
structure JobPatch where
  name : Option String := none
  description : Option String := none
  schedule : Option Schedule := none
  payload : Option Payload := none
  enabled : Option Bool := none
  max_retries : Option Int := none

/-- Model of `JobPatch.apply` (models.py:181-198): overwrite only provided fields
and bump `updated_at_ms` to the current time. -/
def JobPatch.applyTo (p : JobPatch) (job : ScheduledJob) (nowMs : Int) :
    ScheduledJob :=
  { job with
    name := p.name.getD job.name
    description := p.description.getD job.description
    schedule := p.schedule.getD job.schedule
    payload := p.payload.getD job.payload
    enabled := p.enabled.getD job.enabled
    max_retries := p.max_retries.getD job.max_retries
    updated_at_ms := nowMs }

/-! ## YAML serialization (src/scheduler/service/store.py, types.py) -/

/-- Model of `AtSchedule.to_dict` / `EverySchedule.to_dict` / `CronSchedule.to_dict`
(types.py:29-71). -/
def scheduleToDict : Schedule → List (String × Val)
  | .at atMs => [("kind", .str "at"), ("at_ms", .int atMs)]
  | .every iv => [("kind", .str "every"), ("interval_ms", .int iv)]
  | .cron e tz =>
      [("kind", .str "cron"), ("expression", .str e), ("timezone", .str tz)]

/-- Model of `schedule_from_dict` (types.py:85-95): dispatch on `kind`, raising
(`Except.error`) on an unknown kind. -/
def scheduleFromDict (d : List (String × Val)) : Except String Schedule :=
  let kind := getStr d "kind" "at"
  if kind = "at" then .ok (.at (getInt d "at_ms" 0))
  else if kind = "every" then .ok (.every (getInt d "interval_ms" 0))
  else if kind = "cron" then
    .ok (.cron (getStr d "expression" "") (getStr d "timezone" "Asia/Shanghai"))
  else .error ("Unknown schedule kind: " ++ kind)

/-- Model of `TaskChainPayload.to_dict` (types.py:205-210). -/
def taskChainToDict (p : TaskChainPayload) : List (String × Val) :=
  [("kind", .str "task_chain"),
   ("next_job_id", .str p.next_job_id),
   ("on_status", .list (p.on_status.map .str))]

/-- Model of `TaskChainPayload.from_dict` (types.py:212-217). -/
def taskChainFromDict (d : List (String × Val)) : TaskChainPayload :=
  { next_job_id := getStr d "next_job_id" ""
    on_status := getStrList d "on_status" ["ok"] }

/-- Model of `to_dict` of each payload class (types.py:116-210), in the source's
key order. -/
def payloadToDict : Payload → List (String × Val)
  | .system_event message channel chat_id =>
      [("kind", .str "system_event"), ("message", .str message),
       ("channel", .str channel), ("chat_id", .str chat_id)]
  | .agent_turn prompt agent_id context notify_channel notify_chat_id
      timeout_seconds =>
      [("kind", .str "agent_turn"), ("prompt", .str prompt),
       ("agent_id", .str agent_id), ("context", .dict context),
       ("notify_channel", .str notify_channel),
       ("notify_chat_id", .str notify_chat_id),
       ("timeout_seconds", .int timeout_seconds)]
  | .webhook url method headers body timeout_seconds =>
      [("kind", .str "webhook"), ("url", .str url), ("method", .str method),
       ("headers", .dict headers), ("body", .dict body),
       ("timeout_seconds", .int timeout_seconds)]
  | .task_chain p => taskChainToDict p

/-- Model of `payload_from_dict` (types.py:224-236): dispatch on `kind` with
default `agent_turn`, raising on an unknown kind. -/
def payloadFromDict (d : List (String × Val)) : Except String Payload :=
  let kind := getStr d "kind" "agent_turn"
  if kind = "system_event" then
    .ok (.system_event (getStr d "message" "") (getStr d "channel" "telegram")
      (getStr d "chat_id" ""))
  else if kind = "agent_turn" then
    .ok (.agent_turn (getStr d "prompt" "") (getStr d "agent_id" "main")
      (getDict d "context") (getStr d "notify_channel" "telegram")
      (getStr d "notify_chat_id" "") (getInt d "timeout_seconds" 300))
  else if kind = "webhook" then
    .ok (.webhook (getStr d "url" "") (getStr d "method" "POST")
      (getDict d "headers") (getDict d "body") (getInt d "timeout_seconds" 30))
  else if kind = "task_chain" then
    .ok (.task_chain (taskChainFromDict d))
  else .error ("Unknown payload kind: " ++ kind)

/-- Modelled from the spec: `SessionTarget.to_dict`, emitting the three
documented fields with `kind` as the wire discriminator (spec §3, §9);
the class definition is not among the provided sources. -/
def targetToDict (t : SessionTarget) : List (String × Val) :=
  [("kind", .str (match t.kind with
      | .main => "main"
      | .isolated => "isolated")),
   ("trigger_heartbeat", .bool t.trigger_heartbeat),
   ("report_to_main", .bool t.report_to_main)]

/-- Modelled from the spec: `SessionTarget.from_dict` with the documented
defaults (isolated, both flags true); the class definition is not among
the provided sources. -/
def targetFromDict (d : List (String × Val)) : SessionTarget :=
  { kind := if getStr d "kind" "isolated" = "main" then .main else .isolated
    trigger_heartbeat := getBool d "trigger_heartbeat" true
    report_to_main := getBool d "report_to_main" true }

/-- Model of `_job_to_yaml_dict` (store.py:71-106): config-only projection of a
job, omitting falsy/default optional fields, in the source's insertion
order. -/
def jobToYamlDict (job : ScheduledJob) : List (String × Val) :=
  [("id", .str job.id), ("name", .str job.name)]
  ++ (if job.description ≠ "" then [("description", .str job.description)]
      else [])
  ++ [("enabled", .bool job.enabled)]
  ++ (if job.user_id ≠ "" then [("user_id", .str job.user_id)] else [])
  ++ (if job.agent_id ≠ "" ∧ job.agent_id ≠ "main" then
        [("agent_id", .str job.agent_id)]
      else [])
  ++ [("schedule", .dict (scheduleToDict job.schedule))]
  ++ [("payload", .dict (payloadToDict job.payload))]
  ++ (let targetDict := targetToDict job.target
      if getStr targetDict "kind" "" ≠ "isolated" then
        [("target", .dict targetDict)]
      else [])
  ++ (if job.max_retries ≠ 3 then [("max_retries", .int job.max_retries)]
      else [])
  ++ (if job.retry_delay_ms ≠ 60000 then
        [("retry_delay_ms", .int job.retry_delay_ms)]
      else [])
  ++ (if ¬ job.on_complete.isEmpty then
        [("on_complete",
          .list (job.on_complete.map (fun p => .dict (taskChainToDict p))))]
      else [])

/-- Model of `_yaml_dict_to_job` (store.py:109-131): parse the config fields of a
job from its YAML dict. `freshId` stands for the `str(uuid4())` used
when `id` is absent; timestamps are not stored in YAML and keep the
model's neutral default. A raised `ValueError` from the nested
`*_from_dict` calls propagates as `Except.error`. -/
def yamlDictToJob (freshId : String) (d : List (String × Val)) :
    Except String ScheduledJob := do
  let base : ScheduledJob :=
    { id := getStr d "id" freshId
      name := getStr d "name" ""
      description := getStr d "description" ""
      enabled := getBool d "enabled" true
      user_id := getStr d "user_id" ""
      agent_id := getStr d "agent_id" "main"
      max_retries := getInt d "max_retries" 3
      retry_delay_ms := getInt d "retry_delay_ms" 60000 }
  let base ← match alookup d "schedule" with
    | some v =>
        if vtruthy v then
          match v with
          | .dict sd => do pure { base with schedule := ← scheduleFromDict sd }
          | _ => .error "schedule is not a mapping"
        else pure base
    | none => pure base
  let base ← match alookup d "payload" with
    | some v =>
        if vtruthy v then
          match v with
          | .dict pd => do pure { base with payload := ← payloadFromDict pd }
          | _ => .error "payload is not a mapping"
        else pure base
    | none => pure base
  let base := match alookup d "target" with
    | some v =>
        if vtruthy v then
          match v with
          | .dict td => { base with target := targetFromDict td }
          | _ => base
        else base
    | none => base
  let base := match alookup d "on_complete" with
    | some v =>
        if vtruthy v then
          match v with
          | .list ps =>
              { base with on_complete := ps.map (fun pv =>
                  match pv with
                  | .dict pd => taskChainFromDict pd
                  | _ => taskChainFromDict []) }
          | _ => base
        else base
    | none => base
  return base

/-! ## Hybrid store (src/scheduler/service/store.py)

The SQLite `job_state` table is an association list keyed by `job_id`;
the YAML file's current jobs list and the sequence of file-system
operations performed on it are carried explicitly so frame effects can
be stated. -/

/-- One row of the `job_state` table (store.py:39-52), with the TEXT
status columns carried in parsed form (every write goes through
`_upsert_state`, which serializes exactly these values). -/
structure StateRow where
  status : JobStatus
  next_run_at_ms : Option Int
  last_run_at_ms : Option Int
  last_status : Option RunStatus
  run_count : Int
  failure_count : Int
  consecutive_failures : Int
  last_error : Option String
  created_at_ms : Int
  updated_at_ms : Int
deriving DecidableEq, Repr

/-- The row `_upsert_state` (store.py:270-304) writes for a job. -/
def rowFromJob (job : ScheduledJob) : StateRow :=
  { status := job.status
    next_run_at_ms := job.state.next_run_at_ms
    last_run_at_ms := job.state.last_run_at_ms
    last_status := job.state.last_status
    run_count := job.state.run_count
    failure_count := job.state.failure_count
    consecutive_failures := job.state.consecutive_failures
    last_error := job.state.last_error
    created_at_ms := job.created_at_ms
    updated_at_ms := job.updated_at_ms }

/-- The SQL `INSERT ... ON CONFLICT(job_id) DO UPDATE` of `_upsert_state`:
on conflict every column except `created_at_ms` is overwritten. -/
def upsertStateRow (tbl : List (String × StateRow)) (jobId : String)
    (row : StateRow) : List (String × StateRow) :=
  if (alookup tbl jobId).isSome then
    tbl.map (fun kr =>
      if kr.1 = jobId then (kr.1, { row with created_at_ms := kr.2.created_at_ms })
      else kr)
  else tbl ++ [(jobId, row)]

/-- The row-to-job application in `_reconcile_state` (store.py:239-251). -/
def applyRowToJob (job : ScheduledJob) (row : StateRow) : ScheduledJob :=
  { job with
    status := row.status
    state :=
      { next_run_at_ms := row.next_run_at_ms
        last_run_at_ms := row.last_run_at_ms
        last_status := row.last_status
        run_count := row.run_count
        failure_count := row.failure_count
        consecutive_failures := row.consecutive_failures
        last_error := row.last_error }
    created_at_ms := row.created_at_ms
    updated_at_ms := row.updated_at_ms }

/-- The for-loop of `_reconcile_state` (store.py:237-257): `rows` is the
snapshot fetched once at entry; each config job either attaches its
existing row or is stamped with `now` and upserted. -/
def reconcileLoop (rows : List (String × StateRow)) (nowMs : Int) :
    List ScheduledJob → List (String × StateRow) →
    List ScheduledJob × List (String × StateRow)
  | [], tbl => ([], tbl)
  | job :: rest, tbl =>
    match alookup rows job.id with
    | some row =>
        let r := reconcileLoop rows nowMs rest tbl
        (applyRowToJob job row :: r.1, r.2)
    | none =>
        let job2 := { job with created_at_ms := nowMs, updated_at_ms := nowMs }
        let r := reconcileLoop rows nowMs rest
          (upsertStateRow tbl job2.id (rowFromJob job2))
        (job2 :: r.1, r.2)

/-- Model of `_reconcile_state` (store.py:231-268): attach/insert state for every
config job, then delete rows whose `job_id` is not a config job id. -/
def reconcileState (jobs : List ScheduledJob)
    (tbl : List (String × StateRow)) (nowMs : Int) :
    List ScheduledJob × List (String × StateRow) :=
  let r := reconcileLoop tbl nowMs jobs tbl
  let jobIds := jobs.map (fun j => j.id)
  let orphanIds := (tbl.map Prod.fst).filter (fun k => !(jobIds.contains k))
  (r.1, r.2.filter (fun kr => !(orphanIds.contains kr.1)))

/-- Python `d[k] = v`: replace in place if the key exists, else append. -/
def dictInsert {α : Type} (d : List (String × α)) (k : String) (v : α) :
    List (String × α) :=
  if (alookup d k).isSome then
    d.map (fun kv => if kv.1 = k then (k, v) else kv)
  else d ++ [(k, v)]

/-- A file-system operation on the config file, as performed by
`_write_yaml` (store.py:204-227): write the serialized jobs list to the
temp file, then atomically rename it over scheduler.yaml. -/
inductive FsOp where
  | writeTemp (content : List (List (String × Val)))
  | renameTempToYaml

/-- The in-memory and persistent state of a `JobStore`: the `_jobs` dict,
the `job_state` table, the `job_id` column of `job_runs` (row payloads
play no role in any claim), the current contents of scheduler.yaml, and
the trace of file operations performed on it. -/
structure StoreState where
  jobs : List (String × ScheduledJob) := []
  table : List (String × StateRow) := []
  runJobIds : List String := []
  yamlFile : List (List (String × Val)) := []
  fsTrace : List FsOp := []

/-- The serialized jobs list `_write_yaml` produces: jobs sorted by
`created_at_ms` (store.py:206-212), each through `_job_to_yaml_dict`. -/
def writeYamlContent (jobs : List (String × ScheduledJob)) :
    List (List (String × Val)) :=
  (List.insertionSort
      (fun a b => a.created_at_ms ≤ b.created_at_ms)
      (jobs.map Prod.snd)).map jobToYamlDict

/-- Model of `_write_yaml` (store.py:204-227): write the whole config to the temp
file and rename it over scheduler.yaml. -/
def writeYaml (st : StoreState) : StoreState :=
  let content := writeYamlContent st.jobs
  { st with
    yamlFile := content
    fsTrace := st.fsTrace ++ [.writeTemp content, .renameTempToYaml] }

/-- Model of `save` (store.py:308-326): bump `updated_at_ms`, upsert the dict and
the state row, and rewrite YAML only when the job id was unknown. -/
def storeSave (nowMs : Int) (job : ScheduledJob) (st : StoreState) :
    StoreState :=
  let job := { job with updated_at_ms := nowMs }
  let isNew := (alookup st.jobs job.id).isNone
  let st := { st with
    jobs := dictInsert st.jobs job.id job
    table := upsertStateRow st.table job.id (rowFromJob job) }
  if isNew then writeYaml st else st

/-- Model of `delete` (store.py:332-347): remove the job, its state row and its
run rows, then rewrite YAML; a missing id is a no-op returning false. -/
def storeDelete (jobId : String) (st : StoreState) : Bool × StoreState :=
  if (alookup st.jobs jobId).isNone then (false, st)
  else
    let st := { st with
      jobs := st.jobs.filter (fun kv => !(kv.1 == jobId))
      table := st.table.filter (fun kv => !(kv.1 == jobId))
      runJobIds := st.runJobIds.filter (fun r => !(r == jobId)) }
    (true, writeYaml st)

/-- Model of `export_to_yaml` (store.py:597-599): force a YAML rewrite. -/
def exportToYaml (st : StoreState) : StoreState :=
  writeYaml st

/-- Modelled from the spec: the registry's `Create` operation (§4.3) —
status `active` (or `completed` for an at-in-past schedule), next fire
computed with no previous run, then persisted through the store's
`save`; the registry module (service/ops.py) is not among the provided
sources. -/
def createOp (nowMs : Int) (job : ScheduledJob) (st : StoreState) :
    StoreState :=
  let status : JobStatus := match job.schedule with
    | .at atMs => if atMs ≤ nowMs then .completed else .active
    | _ => .active
  let job := { job with
    status := status
    state := { job.state with
      next_run_at_ms := compute_next_run_at_ms job.schedule nowMs none } }
  storeSave nowMs job st

/-- Modelled from the spec: the registry's `Patch` operation (§4.3 and
§3 Lifecycle: "config file rewritten, next_run_at_ms recomputed") —
apply the patch, recompute the next fire with `last_run_at_ms = null`
when the schedule changed, persist, and rewrite the config file; the
registry module (service/ops.py) is not among the provided sources.
Patching an unknown id is a synchronous validation error that leaves
the store untouched (§7.1). -/
def patchOp (nowMs : Int) (jobId : String) (patch : JobPatch)
    (st : StoreState) : StoreState :=
  match alookup st.jobs jobId with
  | none => st
  | some job =>
      let job := patch.applyTo job nowMs
      let job := if patch.schedule.isSome then
          { job with state := { job.state with
              next_run_at_ms := compute_next_run_at_ms job.schedule nowMs none } }
        else job
      exportToYaml (storeSave nowMs job st)

/-- The filter of `get_due_jobs` (store.py:373-379): Python truthiness
makes both a null and a zero `next_run_at_ms` fail the conjunction. -/
def dueFilterPred (beforeMs : Int) (j : ScheduledJob) : Bool :=
  j.enabled && decide (j.status = .active) &&
    (match j.state.next_run_at_ms with
     | none => false
     | some v => !(v == 0) && decide (v ≤ beforeMs))

/-- Python `x or 0` on an optional integer sort key (store.py:380). -/
def pyOrZero : Option Int → Int
  | none => 0
  | some v => v

/-- Model of `get_due_jobs` (store.py:371-381): filter the jobs dict's values and
sort ascending by `next_run_at_ms or 0` (Python's sort is stable;
insertion sort is the stable sort of the model). -/
def get_due_jobs (jobs : List ScheduledJob) (beforeMs : Int) :
    List ScheduledJob :=
  List.insertionSort
    (fun a b => pyOrZero a.state.next_run_at_ms ≤ pyOrZero b.state.next_run_at_ms)
    (jobs.filter (dueFilterPred beforeMs))

/-- The config file was rewritten exactly once going from `st` to `st2`,
through the atomic write-temp-then-rename sequence of `_write_yaml`. -/
def yamlRewrittenOnce (st st2 : StoreState) : Prop :=
  st2.fsTrace = st.fsTrace ++ [.writeTemp st2.yamlFile, .renameTempToYaml]

/-- No file-system operation touched the config file between `st` and
`st2`, and its contents are unchanged. -/
def yamlUntouched (st st2 : StoreState) : Prop :=
  st2.fsTrace = st.fsTrace ∧ st2.yamlFile = st.yamlFile

/-! ## Executor (src/scheduler/executor.py)

Collaborators injected at construction are carried in an environment
record: a Bool for whether each optional callback was configured, plus
pure oracles for the values external calls return. Raised exceptions
are `Except.error` carrying the exception message. -/

/-- The executor's construction-time environment (executor.py:69-91),
with external call results modelled as pure oracles. -/
structure ExecEnv where
  has_agent_runner : Bool := false
  agent_result : String → List (String × Val) → String := fun _ _ => ""
  has_notification_sender : Bool := false
  notif_send : String → String → String → Bool := fun _ _ _ => true
  has_on_system_event : Bool := false
  has_run_heartbeat : Bool := false
  has_report_to_main : Bool := false
  webhook_status : Option Int := none

/-- Python `{**a, **b}`: b's entries override a's. -/
def mergeDicts (a b : List (String × Val)) : List (String × Val) :=
  a.filter (fun kv => (alookup b kv.1).isNone) ++ b

/-- The wire discriminator of a payload (`payload.kind`). -/
def payloadKindStr : Payload → String
  | .system_event .. => "system_event"
  | .agent_turn .. => "agent_turn"
  | .webhook .. => "webhook"
  | .task_chain _ => "task_chain"

/-- Python `str.upper()` (ASCII, as HTTP method names are). -/
def pyUpper (s : String) : String :=
  String.mk (s.data.map Char.toUpper)

/-- Model of `_execute_main_mode` (executor.py:131-161): requires the
`on_system_event` callback; the event injection and the optional
heartbeat are external effects that do not change the result. -/
def executeMainMode (env : ExecEnv) (_job : ScheduledJob)
    (_target : SessionTarget) : Except String String :=
  if !env.has_on_system_event then
    .error "on_system_event callback not configured for main mode"
  else
    .ok "Injected to main session"

/-- Model of `_execute_agent_task` (executor.py:195-218): requires the agent
runner; context is `{job_id, scheduled, original_prompt} ∪ payload.context`
with the payload's entries overriding. -/
def executeAgentTask (env : ExecEnv) (job : ScheduledJob) (prompt : String)
    (context : List (String × Val)) : Except String String :=
  if !env.has_agent_runner then
    .error "No agent runner configured"
  else
    let ctx := mergeDicts
      [("job_id", .str job.id), ("scheduled", .bool true),
       ("original_prompt", .str job.description)]
      context
    .ok (env.agent_result prompt ctx)

/-- Model of `_execute_notification` (executor.py:220-236): requires the
notification sender; a refused delivery (send returning false) is NOT an
exception, it just selects the failure message. -/
def executeNotification (env : ExecEnv) (message channel chat_id : String) :
    Except String String :=
  if !env.has_notification_sender then
    .error "No notification sender configured"
  else if env.notif_send channel chat_id ("⏰ 提醒：" ++ message) then
    .ok "Notification sent"
  else
    .ok "Notification failed"

/-- Model of `_execute_webhook` (executor.py:238-278): the HTTP exchange is an
external effect, modelled by the environment's response status (none
standing for a client error that raises). -/
def executeWebhook (env : ExecEnv) (url method : String) :
    Except String String :=
  if url = "" then .error "No webhook URL configured"
  else
    let m := pyUpper method
    if m = "GET" ∨ m = "POST" ∨ m = "PUT" then
      match env.webhook_status with
      | none => .error "connection error"
      | some status =>
          if status ≥ 400 then
            .error ("Webhook failed with status " ++ toString status)
          else
            .ok ("Webhook " ++ m ++ ": " ++ toString status)
    else .error ("Unsupported HTTP method: " ++ m)

/-- Model of `_execute_isolated_mode` (executor.py:163-193): dispatch on the
payload kind, with the catch-all branch returning the unknown-payload
message as a normal result. Reporting to main and the result
notification (which swallows its own errors, executor.py:292-299) are
external effects that do not change the result. -/
def executeIsolatedMode (env : ExecEnv) (job : ScheduledJob)
    (_target : SessionTarget) : Except String String :=
  match job.payload with
  | .agent_turn prompt _ context _ _ _ =>
      executeAgentTask env job prompt context
  | .system_event message channel chat_id =>
      executeNotification env message channel chat_id
  | .webhook url method _ _ _ =>
      executeWebhook env url method
  | .task_chain _ =>
      .ok ("Unknown payload type: " ++ payloadKindStr job.payload)

/-- Model of `JobExecutor.execute` (executor.py:93-129): default the target to
`SessionTarget()`, dispatch on its kind. The except block logs, attempts
a best-effort failure notification, and re-raises the original
exception, so the Except value passes through unchanged. -/
def execute (env : ExecEnv) (job : ScheduledJob)
    (targetArg : Option SessionTarget) : Except String String :=
  let target := targetArg.getD {}
  if target.kind = .main then executeMainMode env job target
  else executeIsolatedMode env job target

/-- The normal form `_yaml_dict_to_job` produces when fed a dict written
by `_job_to_yaml_dict`: config fields survive, except that a dropped
empty `agent_id` reads back as "main", a dropped isolated-kind target
reads back as the default target (losing its flags), and runtime
state/status/timestamps take their initial values. -/
def normalizeJob (j : ScheduledJob) : ScheduledJob :=
  { id := j.id
    user_id := j.user_id
    agent_id := if j.agent_id ≠ "" ∧ j.agent_id ≠ "main" then j.agent_id
      else "main"
    name := j.name
    description := j.description
    enabled := j.enabled
    schedule := j.schedule
    payload := j.payload
    target := if j.target.kind = .main then j.target else {}
    max_retries := j.max_retries
    retry_delay_ms := j.retry_delay_ms
    on_complete := j.on_complete }

/-- A config job dict carrying an explicitly-written default
(`max_retries: 3`) and an unknown field (`custom_note`), for the C5
counterexample. -/
def roundTripInputDict : List (String × Val) :=
  [("id", .str "job-1"), ("name", .str "demo"), ("enabled", .bool true),
   ("schedule", .dict [("kind", .str "every"), ("interval_ms", .int 1000)]),
   ("payload", .dict [("kind", .str "system_event"), ("message", .str "hi"),
     ("channel", .str "telegram"), ("chat_id", .str "42")]),
   ("max_retries", .int 3),
   ("custom_note", .str "keep me")]

/-- C6 counterexample: a job with `next_run_at_ms = 0` satisfies the
spec's due predicate at `before_ms = 100` but is filtered out by the
code's Python-truthiness test. -/
def zeroNextJob : ScheduledJob :=
  { id := "j0", status := .active, state := { next_run_at_ms := some 0 } }

/-- The due predicate exactly as the spec words it (§4.2 DueJobs):
`enabled ∧ status=active ∧ next_run_at_ms ≤ before_ms`. Stated for
comparison with the code's filter, which additionally requires the
timestamp to be non-zero. -/
def specDuePredicate (j : ScheduledJob) (beforeMs : Int) : Prop :=
  j.enabled = true ∧ j.status = .active ∧
    ∃ v, j.state.next_run_at_ms = some v ∧ v ≤ beforeMs

/-- Concrete state row used by store witnesses. -/
def sampleRow : StateRow :=
  { status := .active, next_run_at_ms := some 5, last_run_at_ms := none,
    last_status := none, run_count := 2, failure_count := 0,
    consecutive_failures := 0, last_error := none,
    created_at_ms := 1, updated_at_ms := 1 }

/-- Concrete job used by store witnesses. -/
def jobA : ScheduledJob := { id := "a" }

/-- A one-job store reached by saving `jobA` into the empty store; used
by the C3 witness. -/
def exampleStore : StoreState := storeSave 0 jobA {}

theorem everyCatchUp_spec (intervalMs currentMs : Int) (hpos : 0 < intervalMs)
    (next : Int) :
    currentMs < everyCatchUp intervalMs currentMs hpos next ∧
    ∃ m : ℕ, everyCatchUp intervalMs currentMs hpos next
        = next + (m : Int) * intervalMs ∧
      ∀ i : ℕ, i < m → next + (i : Int) * intervalMs ≤ currentMs := by
  generalize hn : (currentMs + 1 - next).toNat = n
  induction n using Nat.strong_induction_on generalizing next with
  | _ n ih =>
    rw [everyCatchUp]
    split
    · rename_i hle
      have hlt : (currentMs + 1 - (next + intervalMs)).toNat
          < (currentMs + 1 - next).toNat := by omega
      obtain ⟨h1, m, h2, h3⟩ :=
        ih _ (hn ▸ hlt) (next + intervalMs) rfl
      refine ⟨h1, m + 1, ?_, ?_⟩
      · rw [h2]; push_cast; ring
      · intro i hi
        cases i with
        | zero => simpa using hle
        | succ j =>
            have := h3 j (by omega)
            calc next + ((j + 1 : ℕ) : Int) * intervalMs
                = next + intervalMs + (j : Int) * intervalMs := by
                  push_cast; ring
              _ ≤ currentMs := this
    · rename_i hgt
      exact ⟨by omega, 0, by simp, by omega⟩

/-- C1: for every EverySchedule and every pair (now_ms, last_run_ms),
`compute_next_run_at_ms` returns null when the interval is non-positive;
returns `now_ms + interval_ms` when there is no previous run; and
otherwise returns `last_run_ms + k·interval_ms` for the smallest integer
k ≥ 1 making the result strictly greater than now_ms, so at most one
future slot is produced however far in the past the last run lies. -/
theorem every_schedule_next_run (intervalMs currentMs : Int)
    (lastRunAtMs : Option Int) :
    (intervalMs ≤ 0 →
      compute_next_run_at_ms (.every intervalMs) currentMs lastRunAtMs = none) ∧
    (0 < intervalMs → lastRunAtMs = none →
      compute_next_run_at_ms (.every intervalMs) currentMs lastRunAtMs
        = some (currentMs + intervalMs)) ∧
    (∀ last : Int, 0 < intervalMs → lastRunAtMs = some last →
      ∃ k : Int, 1 ≤ k ∧
        compute_next_run_at_ms (.every intervalMs) currentMs lastRunAtMs
          = some (last + k * intervalMs) ∧
        currentMs < last + k * intervalMs ∧
        ∀ j : Int, 1 ≤ j → j < k → last + j * intervalMs ≤ currentMs) := by
  refine ⟨?_, ?_, ?_⟩
  · intro h
    simp [compute_next_run_at_ms, compute_every_next, h]
  · intro h hn
    subst hn
    simp only [compute_next_run_at_ms, compute_every_next]
    rw [dif_neg (by omega)]
  · intro last h hs
    subst hs
    simp only [compute_next_run_at_ms, compute_every_next]
    rw [dif_neg (by omega)]
    obtain ⟨h1, m, h2, h3⟩ :=
      everyCatchUp_spec intervalMs currentMs (by omega) (last + intervalMs)
    refine ⟨(m : Int) + 1, by omega, ?_, ?_, ?_⟩
    · rw [h2]
      congr 1
      ring
    · calc currentMs
          < everyCatchUp intervalMs currentMs (by omega) (last + intervalMs) := h1
        _ = last + ((m : Int) + 1) * intervalMs := by rw [h2]; ring
    · intro j hj1 hjk
      have hnat : (((j - 1).toNat : Int)) = j - 1 := by omega
      have hlt : (j - 1).toNat < m := by omega
      have := h3 (j - 1).toNat hlt
      rw [hnat] at this
      calc last + j * intervalMs
          = last + intervalMs + (j - 1) * intervalMs := by ring
        _ ≤ currentMs := this

/-- Witness for C1 at interval 3, now 10, last run 0: the next fire is
12, the first multiple of 3 past 10. -/
theorem every_schedule_next_run_witness :
    compute_next_run_at_ms (.every 3) 10 (some 0) = some 12 := by
  obtain ⟨k, hk1, heq, hgt, hmin⟩ :=
    (every_schedule_next_run 3 10 (some 0)).2.2 0 (by norm_num) rfl
  have hk4 : k = 4 := by
    rcases lt_trichotomy k 4 with hlt | he | hgt4
    · omega
    · exact he
    · have := hmin 4 (by norm_num) hgt4
      omega
  rw [heq, hk4]
  norm_num

/-- C4: the daily branch of the fallback cron calculator. At local time
2024-01-15 14:00 Asia/Shanghai (epoch ms 1705298400000) with
`"0 9 * * *"` it returns 2024-01-16 09:00 +08:00 (1705366800000) as the
spec requires, but at the failing input 2024-01-31 14:00 (epoch ms
1706680800000) — the last day of a month past the firing time — it
returns null instead of 2024-02-01 09:00 +08:00 (1706749200000):
`replace(day=day+1)` raises ValueError, which the bare except swallows. -/
theorem cron_fallback_month_end_gap :
    compute_next_run_at_ms (.cron "0 9 * * *" "Asia/Shanghai")
        1705298400000 none = some 1705366800000 ∧
    compute_next_run_at_ms (.cron "0 9 * * *" "Asia/Shanghai")
        1706680800000 none = none := by
  constructor <;> decide

/-- C6 counterexample: the spec's predicate admits `zeroNextJob` at
`before_ms = 100`, yet `get_due_jobs` omits it. -/
theorem due_jobs_zero_counterexample :
    get_due_jobs [zeroNextJob] 100 = [] ∧ specDuePredicate zeroNextJob 100 := by
  refine ⟨rfl, rfl, rfl, 0, rfl, by norm_num⟩

/-- C6 amended: `get_due_jobs` returns exactly the jobs with
`enabled ∧ status=active ∧ next_run_at_ms` non-null AND non-zero
`∧ next_run_at_ms ≤ before_ms` (Python truthiness excludes a zero
timestamp), sorted ascending by `next_run_at_ms`. -/
theorem due_jobs_characterization (jobs : List ScheduledJob) (beforeMs : Int) :
    (∀ j, j ∈ get_due_jobs jobs beforeMs ↔
      j ∈ jobs ∧ j.enabled = true ∧ j.status = .active ∧
        ∃ v, j.state.next_run_at_ms = some v ∧ v ≠ 0 ∧ v ≤ beforeMs) ∧
    List.Perm (get_due_jobs jobs beforeMs)
      (jobs.filter (dueFilterPred beforeMs)) ∧
    List.Sorted
      (fun a b => pyOrZero a.state.next_run_at_ms ≤ pyOrZero b.state.next_run_at_ms)
      (get_due_jobs jobs beforeMs) := by
  have hperm : List.Perm (get_due_jobs jobs beforeMs)
      (jobs.filter (dueFilterPred beforeMs)) :=
    List.perm_insertionSort _ _
  refine ⟨?_, hperm, ?_⟩
  · intro j
    rw [hperm.mem_iff, List.mem_filter]
    constructor
    · rintro ⟨hmem, hpred⟩
      refine ⟨hmem, ?_⟩
      simp only [dueFilterPred, Bool.and_eq_true, decide_eq_true_eq] at hpred
      obtain ⟨⟨he, hs⟩, hv⟩ := hpred
      refine ⟨he, hs, ?_⟩
      cases hnx : j.state.next_run_at_ms with
      | none => rw [hnx] at hv; simp at hv
      | some v =>
          rw [hnx] at hv
          simp only [Bool.and_eq_true, bne_iff_ne, decide_eq_true_eq] at hv
          exact ⟨v, rfl, by simpa using hv.1, hv.2⟩
    · rintro ⟨hmem, he, hs, v, hnx, hv0, hvle⟩
      refine ⟨hmem, ?_⟩
      simp [dueFilterPred, he, hs, hnx, hv0, hvle]
  · have : IsTotal ScheduledJob
        (fun a b => pyOrZero a.state.next_run_at_ms ≤ pyOrZero b.state.next_run_at_ms) :=
      ⟨fun a b => le_total _ _⟩
    have : IsTrans ScheduledJob
        (fun a b => pyOrZero a.state.next_run_at_ms ≤ pyOrZero b.state.next_run_at_ms) :=
      ⟨fun _ _ _ hab hbc => le_trans hab hbc⟩
    exact List.sorted_insertionSort _ _

/-- C7: executing a job that requires a collaborator callback absent
from the executor's construction fails with an error naming the missing
collaborator: `on_system_event` for main-target execution, the agent
runner for isolated agent_turn payloads, the notification sender for
isolated system_event payloads. -/
theorem missing_collaborator_errors (env : ExecEnv) (job : ScheduledJob)
    (target : SessionTarget) :
    (target.kind = .main → env.has_on_system_event = false →
      execute env job (some target)
        = .error "on_system_event callback not configured for main mode") ∧
    (target.kind = .isolated → env.has_agent_runner = false →
      ∀ prompt aid ctx nch ncid ts,
        job.payload = .agent_turn prompt aid ctx nch ncid ts →
        execute env job (some target) = .error "No agent runner configured") ∧
    (target.kind = .isolated → env.has_notification_sender = false →
      ∀ msg ch cid, job.payload = .system_event msg ch cid →
        execute env job (some target)
          = .error "No notification sender configured") := by
  refine ⟨?_, ?_, ?_⟩
  · intro hk hcb
    simp [execute, executeMainMode, hk, hcb]
  · intro hk hcb prompt aid ctx nch ncid ts hp
    simp [execute, executeIsolatedMode, executeAgentTask, hk, hcb, hp]
  · intro hk hcb msg ch cid hp
    simp [execute, executeIsolatedMode, executeNotification, hk, hcb, hp]

/-- Witness for C7 with an empty environment: all three missing-
collaborator errors at concrete jobs and targets. -/
theorem missing_collaborator_errors_witness :
    execute {} { id := "j1" } (some { kind := .main })
      = .error "on_system_event callback not configured for main mode" ∧
    execute {} { id := "j2", payload := .agent_turn "p" "main" [] "telegram" "" 300 }
        (some {})
      = .error "No agent runner configured" ∧
    execute {} { id := "j3", payload := .system_event "m" "telegram" "42" }
        (some {})
      = .error "No notification sender configured" :=
  ⟨(missing_collaborator_errors {} { id := "j1" } { kind := .main }).1 rfl rfl,
   (missing_collaborator_errors {}
      { id := "j2", payload := .agent_turn "p" "main" [] "telegram" "" 300 }
      {}).2.1 rfl rfl "p" "main" [] "telegram" "" 300 rfl,
   (missing_collaborator_errors {}
      { id := "j3", payload := .system_event "m" "telegram" "42" }
      {}).2.2 rfl rfl "m" "telegram" "42" rfl⟩

/-- C9: a payload whose kind is none of agent_turn, system_event or
webhook — the task_chain payload used as a job's primary payload — makes
isolated execution return the string "Unknown payload type: task_chain"
as a normal (non-raising) result. -/
theorem unknown_payload_returns_normally (env : ExecEnv) (job : ScheduledJob)
    (target : SessionTarget) (p : TaskChainPayload) :
    target.kind = .isolated → job.payload = .task_chain p →
    execute env job (some target) = .ok "Unknown payload type: task_chain" := by
  intro hk hp
  simp [execute, executeIsolatedMode, payloadKindStr, hk, hp]

/-- Witness for C9 at a concrete task_chain job. -/
theorem unknown_payload_returns_normally_witness :
    execute {} { id := "jA", payload := .task_chain { next_job_id := "jB" } }
        (some {})
      = .ok "Unknown payload type: task_chain" :=
  unknown_payload_returns_normally {}
    { id := "jA", payload := .task_chain { next_job_id := "jB" } }
    {} { next_job_id := "jB" } rfl rfl

/-- C10: when the notification sender's send returns false (delivery
refused) rather than raising, isolated execution of a system_event
payload completes normally with the string "Notification failed"; no
exception propagates. -/
theorem refused_notification_is_not_failure (env : ExecEnv)
    (job : ScheduledJob) (target : SessionTarget) (msg ch cid : String) :
    target.kind = .isolated → job.payload = .system_event msg ch cid →
    env.has_notification_sender = true →
    env.notif_send ch cid ("⏰ 提醒：" ++ msg) = false →
    execute env job (some target) = .ok "Notification failed" := by
  intro hk hp hsender hsend
  simp [execute, executeIsolatedMode, executeNotification, hk, hp, hsender,
    hsend]

/-- Witness for C10 with a sender that always refuses. -/
theorem refused_notification_is_not_failure_witness :
    execute
      { has_notification_sender := true, notif_send := fun _ _ _ => false }
      { id := "jn", payload := .system_event "hi" "telegram" "42" }
      (some {})
      = .ok "Notification failed" :=
  refused_notification_is_not_failure
    { has_notification_sender := true, notif_send := fun _ _ _ => false }
    { id := "jn", payload := .system_event "hi" "telegram" "42" }
    {} "hi" "telegram" "42" rfl rfl rfl rfl

/-- C8 counterexample: `"1-x"` is a range whose right component is not a
valid field value, yet the validator accepts the expression — the source
comment says "Range or list, assume valid". -/
theorem validate_cron_malformed_range_accepted :
    validate_cron_expression "1-x * * * *" = true := by
  decide

lemma digitsToNat_go_isSome (cs : List Char) (acc : Nat)
    (h : cs.all Char.isDigit = true) : (digitsToNat.go cs acc).isSome := by
  induction cs generalizing acc with
  | nil => simp [digitsToNat.go]
  | cons c rest ih =>
      simp only [List.all_cons, Bool.and_eq_true] at h
      simp [digitsToNat.go, h.1, ih _ h.2]

lemma digitsToNat_isSome (cs : List Char) (hne : cs ≠ [])
    (hall : cs.all Char.isDigit = true) : (digitsToNat cs).isSome := by
  unfold digitsToNat
  split
  · exact absurd rfl hne
  · exact digitsToNat_go_isSome _ _ hall

lemma isDigit_not_asciiSpace (c : Char) (h : c.isDigit = true) :
    pyAsciiSpace c = false := by
  simp only [Char.isDigit, Bool.and_eq_true, decide_eq_true_eq] at h
  obtain ⟨h1, h2⟩ := h
  have h48 : 48 ≤ c.toNat := h1
  have h57 : c.toNat ≤ 57 := h2
  cases hb : pyAsciiSpace c
  · rfl
  · exfalso
    unfold pyAsciiSpace at hb
    simp only [Bool.or_eq_true, Bool.and_eq_true, decide_eq_true_eq,
      beq_iff_eq] at hb
    omega

lemma digitGroups_digits_isSome (cs : List Char) (acc : Nat)
    (h : cs.all Char.isDigit = true) : (digitGroups cs acc).isSome := by
  induction cs generalizing acc with
  | nil => simp [digitGroups]
  | cons c rest ih =>
      simp only [List.all_cons, Bool.and_eq_true] at h
      have hu : (c == '_') = false := by
        cases hb : c == '_'
        · rfl
        · have he : c = '_' := eq_of_beq hb
          rw [he] at h
          exact absurd h.1 (by decide)
      unfold digitGroups
      rw [hu]
      simp only [Bool.false_eq_true, if_false]
      rw [if_pos h.1]
      exact ih (acc * 10 + (c.toNat - 48)) h.2

lemma stripAsciiSpace_digits (cs : List Char)
    (h : cs.all Char.isDigit = true) : stripAsciiSpace cs = cs := by
  have hdrop : ∀ (l : List Char), l.all Char.isDigit = true →
      l.dropWhile pyAsciiSpace = l := by
    intro l hl
    cases l with
    | nil => rfl
    | cons c rest =>
        simp only [List.all_cons, Bool.and_eq_true] at hl
        rw [List.dropWhile_cons, isDigit_not_asciiSpace c hl.1]
        simp
  have hrev : cs.reverse.all Char.isDigit = true := by
    simp only [List.all_eq_true] at h ⊢
    intro x hx
    exact h x (List.mem_reverse.mp hx)
  unfold stripAsciiSpace
  rw [hdrop cs h, hdrop cs.reverse hrev, List.reverse_reverse]

lemma pyIsdigit_intOfString_isSome (s : String)
    (h : pyIsdigit s = true) : (pyIntOfString s).isSome := by
  simp only [pyIsdigit, Bool.and_eq_true, Bool.not_eq_true'] at h
  obtain ⟨hne, hall⟩ := h
  unfold pyIntOfString
  rw [stripAsciiSpace_digits s.data hall]
  rcases hd : s.data with - | ⟨c, rest⟩
  · rw [hd] at hne
    simp at hne
  · have hall2 : (c :: rest).all Char.isDigit = true := by rw [← hd]; exact hall
    have hcd : c.isDigit = true := by
      simp only [List.all_cons, Bool.and_eq_true] at hall2
      exact hall2.1
    have hrest : rest.all Char.isDigit = true := by
      simp only [List.all_cons, Bool.and_eq_true] at hall2
      exact hall2.2
    split
    · rename_i rest2 heq
      obtain ⟨hc, -⟩ := List.cons.inj heq
      rw [hc] at hcd
      simp [Char.isDigit] at hcd
    · rename_i rest2 heq
      obtain ⟨hc, -⟩ := List.cons.inj heq
      rw [hc] at hcd
      simp [Char.isDigit] at hcd
    · have hred : digitsToNatPy (c :: rest) = digitGroups rest (c.toNat - 48) := by
        simp [digitsToNatPy, hcd]
      rw [hred]
      have hs := digitGroups_digits_isSome rest (c.toNat - 48) hrest
      cases hval : digitGroups rest (c.toNat - 48) with
      | none => rw [hval] at hs; simp at hs
      | some n => simp [hval]

lemma pyIsdigit_ne_star (s : String) (h : pyIsdigit s = true) : s ≠ "*" := by
  intro he
  subst he
  simp [pyIsdigit, Char.isDigit] at h

lemma pyIsdigit_not_startsWith (s : String) (h : pyIsdigit s = true) :
    pyStartsWith s "*/" = false := by
  simp only [pyIsdigit, Bool.and_eq_true, Bool.not_eq_true'] at h
  obtain ⟨-, hall⟩ := h
  unfold pyStartsWith
  cases hd : s.data with
  | nil => simp [List.isPrefixOf]
  | cons c rest =>
      rw [hd] at hall
      simp only [List.all_cons, Bool.and_eq_true] at hall
      show (String.data "*/").isPrefixOf (c :: rest) = false
      have : String.data "*/" = ['*', '/'] := rfl
      rw [this]
      simp only [List.isPrefixOf, Bool.and_eq_false_iff]
      left
      have hc : c ≠ '*' := by
        intro he
        rw [he] at hall
        simp [Char.isDigit] at hall
      simpa using Ne.symm hc

lemma pyStartsWith_starSlash_shape (s : String)
    (h : pyStartsWith s "*/" = true) :
    ∃ rest, s.data = '*' :: '/' :: rest := by
  unfold pyStartsWith at h
  have hps : String.data "*/" = ['*', '/'] := rfl
  rw [hps] at h
  cases hd : s.data with
  | nil => rw [hd] at h; simp [List.isPrefixOf] at h
  | cons c rest =>
      rw [hd] at h
      cases rest with
      | nil =>
          simp only [List.isPrefixOf, Bool.and_eq_true, beq_iff_eq] at h
          exact absurd h.2 (by simp [List.isPrefixOf])
      | cons c2 rest2 =>
          simp only [List.isPrefixOf, Bool.and_eq_true, beq_iff_eq] at h
          obtain ⟨h1, h2, -⟩ := h
          exact ⟨rest2, by rw [h1, h2]⟩

lemma pyStartsWith_starSlash_ne_star (s : String)
    (h : pyStartsWith s "*/" = true) : s ≠ "*" := by
  obtain ⟨rest, hd⟩ := pyStartsWith_starSlash_shape s h
  intro he
  subst he
  simp at hd

/-- The per-field check of the fallback validator accepts any field that
`isdigit` certifies. -/
lemma validator_accepts_digit_field (s : String) (h : pyIsdigit s = true) :
    (if s = "*" then true
     else if pyStartsWith s "*/" then (pyIntOfString (pyDrop s 2)).isSome
     else if pyContainsChar s '-' || pyContainsChar s ',' then true
     else (pyIntOfString s).isSome) = true := by
  rw [if_neg (pyIsdigit_ne_star s h)]
  rw [pyIsdigit_not_startsWith s h]
  simp only [Bool.false_eq_true, if_false]
  split
  · rfl
  · simpa using pyIsdigit_intOfString_isSome s h

/-- C8 amended: the validator accepts every expression for which the
fallback calculator computes a next firing instant, and returns false
for a 5-field expression containing a malformed literal or step field —
but a field containing a range or list separator is assumed valid
without checking its components. The rejection conjuncts restrict the
offending field to ASCII characters, the domain on which
`pyIntOfString` is an exact model of Python `int` (PEP 515 underscore
groups such as "1_0" are accepted by both; non-ASCII decimal digits,
which `int` also accepts, lie outside the model). -/
theorem validate_cron_amended :
    (∀ expression timezone currentMs,
      (compute_cron_fallback expression timezone currentMs).isSome →
      validate_cron_expression expression = true) ∧
    (∀ expression part, part ∈ pySplit expression →
      (pySplit expression).length = 5 →
      part.data.all (fun c => c.toNat ≤ 127) = true →
      part ≠ "*" → pyStartsWith part "*/" = false →
      pyContainsChar part '-' = false → pyContainsChar part ',' = false →
      pyIntOfString part = none →
      validate_cron_expression expression = false) ∧
    (∀ expression part, part ∈ pySplit expression →
      (pySplit expression).length = 5 →
      part.data.all (fun c => c.toNat ≤ 127) = true →
      pyStartsWith part "*/" = true →
      pyIntOfString (pyDrop part 2) = none →
      validate_cron_expression expression = false) := by
  refine ⟨?_, ?_, ?_⟩
  · intro expression timezone currentMs h
    unfold compute_cron_fallback at h
    split at h
    · rename_i minute hour day month weekday hsplit
      split at h
      · simp at h
      · rename_i offSec hoff
        simp only [validate_cron_expression]
        rw [hsplit]
        rw [if_neg (by norm_num)]
        simp only [List.all_cons, List.all_nil, Bool.and_true]
        split at h
        · rename_i hdaily
          simp only [Bool.and_eq_true, decide_eq_true_eq] at hdaily
          obtain ⟨⟨⟨⟨hday, hmonth⟩, hweekday⟩, hmin⟩, hhour⟩ := hdaily
          subst hday hmonth hweekday
          simp only [Bool.and_eq_true]
          refine ⟨validator_accepts_digit_field _ hmin,
            validator_accepts_digit_field _ hhour, ?_, ?_, ?_⟩ <;> simp
        · split at h
          · rename_i hstep
            simp only [Bool.and_eq_true, decide_eq_true_eq] at hstep
            obtain ⟨⟨⟨⟨hsw, hhour⟩, hday⟩, hmonth⟩, hweekday⟩ := hstep
            subst hhour hday hmonth hweekday
            split at h
            · simp at h
            · rename_i iv hiv
              simp only [Bool.and_eq_true]
              have hminfield :
                  (if minute = "*" then true
                   else if pyStartsWith minute "*/" then
                     (pyIntOfString (pyDrop minute 2)).isSome
                   else if pyContainsChar minute '-' || pyContainsChar minute ',' then true
                   else (pyIntOfString minute).isSome) = true := by
                rw [if_neg (pyStartsWith_starSlash_ne_star minute hsw)]
                rw [hsw]
                simp [hiv]
              refine ⟨hminfield, ?_, ?_, ?_, ?_⟩ <;> simp
          · simp at h
    · simp at h
  · intro expression part hmem hlen hascii hne hsw hdash hcomma hint
    simp only [validate_cron_expression]
    rw [if_neg (by omega)]
    cases hall : (pySplit expression).all _
    · rfl
    · have := List.all_eq_true.1 hall part hmem
      rw [if_neg hne, hsw] at this
      simp only [Bool.false_eq_true, if_false] at this
      rw [hdash, hcomma] at this
      simp only [Bool.or_self, Bool.false_eq_true, if_false] at this
      rw [hint] at this
      simp at this
  · intro expression part hmem hlen hascii hsw hint
    simp only [validate_cron_expression]
    rw [if_neg (by omega)]
    cases hall : (pySplit expression).all _
    · rfl
    · have := List.all_eq_true.1 hall part hmem
      rw [if_neg (pyStartsWith_starSlash_ne_star part hsw), hsw] at this
      rw [hint] at this
      simp at this

/-! ### Association-list lemmas for the store proofs -/

lemma alookup_isSome_iff_mem_keys {α : Type} (l : List (String × α))
    (id : String) : (alookup l id).isSome ↔ id ∈ l.map Prod.fst := by
  induction l with
  | nil => simp [alookup]
  | cons kv rest ih =>
      obtain ⟨k, v⟩ := kv
      by_cases hk : k = id
      · subst hk
        simp [alookup]
      · simp [alookup, hk, ih, Ne.symm hk]

lemma alookup_append {α : Type} (l1 l2 : List (String × α)) (id : String) :
    alookup (l1 ++ l2) id
      = if (alookup l1 id).isSome then alookup l1 id else alookup l2 id := by
  induction l1 with
  | nil => simp [alookup]
  | cons kv rest ih =>
      obtain ⟨k, v⟩ := kv
      by_cases hk : k = id
      · subst hk
        simp [alookup]
      · simp [alookup, hk, ih]

lemma alookup_cons {α : Type} (k : String) (v : α) (rest : List (String × α))
    (key : String) :
    alookup ((k, v) :: rest) key = if k = key then some v else alookup rest key :=
  rfl

lemma alookup_filter_key {α : Type} (l : List (String × α))
    (p : String → Bool) (id : String) :
    alookup (l.filter (fun kr => p kr.1)) id
      = if p id then alookup l id else none := by
  induction l with
  | nil => by_cases hp : p id = true <;> simp [alookup, hp]
  | cons kv rest ih =>
      obtain ⟨k, v⟩ := kv
      simp only [List.filter_cons]
      by_cases hp : p k = true
      · rw [if_pos hp, alookup_cons, alookup_cons]
        by_cases hk : k = id
        · subst hk
          rw [if_pos rfl, if_pos rfl, if_pos hp]
        · rw [if_neg hk, if_neg hk, ih]
      · rw [if_neg hp, ih]
        by_cases hk : k = id
        · subst hk
          rw [if_neg hp, if_neg hp]
        · rw [alookup_cons, if_neg hk]

lemma alookup_filter_contains {α : Type} (l : List (String × α))
    (bad : List String) (id : String) :
    alookup (l.filter (fun kr => !(bad.contains kr.1))) id
      = if !(bad.contains id) then alookup l id else none :=
  alookup_filter_key l (fun x => !(bad.contains x)) id

lemma alookup_map_upd {α : Type} (tbl : List (String × α)) (k : String)
    (upd : α → α) (id : String) :
    alookup (tbl.map (fun kr => if kr.1 = k then (kr.1, upd kr.2) else kr)) id
      = if id = k then (alookup tbl id).map upd else alookup tbl id := by
  induction tbl with
  | nil => by_cases hq : id = k <;> simp [alookup, hq]
  | cons kv rest ih =>
      obtain ⟨k1, v1⟩ := kv
      simp only [List.map_cons]
      by_cases h1 : k1 = k
      · subst h1
        rw [if_pos (show (k1, v1).1 = k1 from rfl)]
        rw [alookup_cons, alookup_cons]
        by_cases h2 : k1 = id
        · subst h2
          rw [if_pos rfl, if_pos rfl, if_pos rfl]
          rfl
        · rw [if_neg h2, if_neg h2, ih]
      · rw [if_neg (show ¬ (k1, v1).1 = k from h1)]
        rw [alookup_cons, alookup_cons]
        by_cases h2 : k1 = id
        · subst h2
          rw [if_pos rfl, if_neg (fun he : k1 = k => h1 he), if_pos rfl]
        · rw [if_neg h2, ih, if_neg h2]

lemma upsert_lookup_other (tbl : List (String × StateRow)) (k : String)
    (row : StateRow) (id : String) (h : id ≠ k) :
    alookup (upsertStateRow tbl k row) id = alookup tbl id := by
  unfold upsertStateRow
  split
  · rw [alookup_map_upd tbl k
      (fun old => { row with created_at_ms := old.created_at_ms }) id]
    rw [if_neg h]
  · rw [alookup_append]
    split
    · rfl
    · rename_i hnone
      cases hl : alookup tbl id with
      | none => simp [alookup, Ne.symm h]
      | some v => rw [hl] at hnone; simp at hnone

lemma upsert_lookup_self_new (tbl : List (String × StateRow)) (k : String)
    (row : StateRow) (h : alookup tbl k = none) :
    alookup (upsertStateRow tbl k row) k = some row := by
  unfold upsertStateRow
  rw [h]
  simp only [Option.isSome_none, Bool.false_eq_true, if_false]
  rw [alookup_append, h]
  simp [alookup]

lemma upsert_lookup_isSome (tbl : List (String × StateRow)) (k : String)
    (row : StateRow) (id : String) :
    (alookup (upsertStateRow tbl k row) id).isSome
      ↔ (id = k ∨ (alookup tbl id).isSome) := by
  by_cases hid : id = k
  · subst hid
    cases htbl : alookup tbl id with
    | none => simp [upsert_lookup_self_new tbl id row htbl]
    | some v =>
        constructor
        · intro _
          right
          simp [htbl]
        · intro _
          unfold upsertStateRow
          rw [htbl]
          simp only [Option.isSome_some, if_true]
          rw [alookup_map_upd tbl id
            (fun old => { row with created_at_ms := old.created_at_ms }) id]
          simp [htbl]
  · rw [upsert_lookup_other tbl k row id hid]
    simp [hid]

/-! ### Reconciliation lemmas (C2) -/

lemma reconcileLoop_lookup_isSome (rows : List (String × StateRow))
    (nowMs : Int) (js : List ScheduledJob) :
    ∀ (tbl : List (String × StateRow)) (id : String),
      (alookup (reconcileLoop rows nowMs js tbl).2 id).isSome
        ↔ ((alookup tbl id).isSome
            ∨ (id ∈ js.map (fun j => j.id) ∧ alookup rows id = none)) := by
  induction js with
  | nil => simp [reconcileLoop]
  | cons a rest ih =>
      intro tbl id
      cases hrow : alookup rows a.id with
      | some r =>
          simp only [reconcileLoop, hrow]
          rw [ih]
          by_cases hid : id = a.id
          · subst hid
            simp [hrow]
          · simp [List.mem_cons, hid]
      | none =>
          simp only [reconcileLoop, hrow]
          rw [ih]
          rw [upsert_lookup_isSome]
          by_cases hid : id = a.id
          · subst hid
            simp [hrow]
          · simp only [hid, false_or]
            constructor
            · rintro (h | h)
              · exact Or.inl h
              · exact Or.inr ⟨List.mem_map.2 (by
                  obtain ⟨j, hj, hje⟩ := List.mem_map.1 h.1
                  exact ⟨j, List.mem_cons_of_mem _ hj, hje⟩), h.2⟩
            · rintro (h | h)
              · exact Or.inl h
              · rcases List.mem_map.1 h.1 with ⟨j, hj, hje⟩
                rcases List.mem_cons.1 hj with hj1 | hj2
                · exact absurd (hj1 ▸ hje : a.id = id).symm hid
                · exact Or.inr ⟨List.mem_map.2 ⟨j, hj2, hje⟩, h.2⟩

lemma reconcileLoop_lookup_unchanged (rows : List (String × StateRow))
    (nowMs : Int) (js : List ScheduledJob) :
    ∀ (tbl : List (String × StateRow)) (id : String),
      id ∉ js.map (fun j => j.id) →
      alookup (reconcileLoop rows nowMs js tbl).2 id = alookup tbl id := by
  induction js with
  | nil => intro tbl id _; simp [reconcileLoop]
  | cons a rest ih =>
      intro tbl id hmem
      have hne : id ≠ a.id := fun he =>
        hmem (List.mem_map.2 ⟨a, List.mem_cons_self a rest, he.symm⟩)
      have hrest : id ∉ rest.map (fun j => j.id) := fun hm =>
        hmem (by
          obtain ⟨j, hj, hje⟩ := List.mem_map.1 hm
          exact List.mem_map.2 ⟨j, List.mem_cons_of_mem _ hj, hje⟩)
      cases hrow : alookup rows a.id with
      | some r =>
          simp only [reconcileLoop, hrow]
          exact ih tbl id hrest
      | none =>
          simp only [reconcileLoop, hrow]
          rw [ih _ id hrest]
          exact upsert_lookup_other _ _ _ _ hne

lemma reconcileLoop_inserts_fresh (rows : List (String × StateRow))
    (nowMs : Int) (js : List ScheduledJob) :
    ∀ (tbl : List (String × StateRow)) (j : ScheduledJob),
      (js.map (fun j => j.id)).Nodup → j ∈ js →
      alookup rows j.id = none → alookup tbl j.id = none →
      alookup (reconcileLoop rows nowMs js tbl).2 j.id
        = some (rowFromJob
            { j with created_at_ms := nowMs, updated_at_ms := nowMs }) := by
  induction js with
  | nil => intro tbl j _ hmem; exact absurd hmem (List.not_mem_nil j)
  | cons a rest ih =>
      intro tbl j hnodup hmem hrows htbl
      rcases List.mem_cons.1 hmem with hja | hjr
      · subst hja
        rw [reconcileLoop]
        rw [hrows]
        have hnotin : j.id ∉ rest.map (fun x => x.id) :=
          (List.nodup_cons.1 hnodup).1
        rw [reconcileLoop_lookup_unchanged rows nowMs rest _ j.id hnotin]
        exact upsert_lookup_self_new tbl j.id _ htbl
      · have hne : j.id ≠ a.id := by
          intro he
          have hmm : j.id ∈ rest.map (fun x => x.id) :=
            List.mem_map.2 ⟨j, hjr, rfl⟩
          rw [he] at hmm
          exact (List.nodup_cons.1 hnodup).1 hmm
        cases hrow : alookup rows a.id with
        | some r =>
            simp only [reconcileLoop, hrow]
            exact ih tbl j (List.nodup_cons.1 hnodup).2 hjr hrows htbl
        | none =>
            simp only [reconcileLoop, hrow]
            refine ih _ j (List.nodup_cons.1 hnodup).2 hjr hrows ?_
            rw [upsert_lookup_other _ _ _ _ hne]
            exact htbl

/-- C2: after reconciliation, the set of job ids in the job_state table
equals the set of job ids loaded from the config file: a row with the
job's (initial, now-stamped) state is inserted for every config job
that had none, and every row whose job id is not in the config is
deleted. -/
theorem reconcile_aligns_job_ids (jobs : List ScheduledJob)
    (tbl : List (String × StateRow)) (nowMs : Int)
    (hnodup : (jobs.map (fun j => j.id)).Nodup) :
    (∀ id, (alookup (reconcileState jobs tbl nowMs).2 id).isSome
        ↔ id ∈ jobs.map (fun j => j.id)) ∧
    (∀ j ∈ jobs, alookup tbl j.id = none →
      alookup (reconcileState jobs tbl nowMs).2 j.id
        = some (rowFromJob
            { j with created_at_ms := nowMs, updated_at_ms := nowMs })) := by
  have hrows_none : ∀ id, alookup tbl id = none ↔ id ∉ tbl.map Prod.fst := by
    intro id
    rw [← alookup_isSome_iff_mem_keys]
    cases alookup tbl id <;> simp
  constructor
  · intro id
    simp only [reconcileState]
    rw [alookup_filter_contains]
    cases horb : ((tbl.map Prod.fst).filter
        (fun k => !((jobs.map (fun j => j.id)).contains k))).contains id with
    | true =>
        simp only [horb, Bool.not_true, Bool.false_eq_true, if_false]
        have hmemf := List.mem_filter.1 (List.elem_iff.mp horb)
        have hnid : id ∉ jobs.map (fun j => j.id) := by
          intro hmem
          have h3 : (jobs.map (fun j => j.id)).contains id = true :=
            List.elem_iff.mpr hmem
          have h2 := hmemf.2
          simp only [h3] at h2
          simp at h2
        constructor
        · intro hsome
          simp at hsome
        · intro hmem
          exact absurd hmem hnid
    | false =>
        simp only [horb, Bool.not_false, if_true]
        rw [reconcileLoop_lookup_isSome]
        have hnotf : ¬ (id ∈ tbl.map Prod.fst
            ∧ id ∉ jobs.map (fun j => j.id)) := by
          intro ⟨h1, h2⟩
          have hcf : (jobs.map (fun j => j.id)).contains id = false := by
            cases hc : (jobs.map (fun j => j.id)).contains id
            · rfl
            · exact absurd (List.elem_iff.mp hc) h2
          have hct : ((tbl.map Prod.fst).filter
              (fun k => !((jobs.map (fun j => j.id)).contains k))).contains id
                = true :=
            List.elem_iff.mpr (List.mem_filter.2 ⟨h1, by
              simp only [hcf]
              rfl⟩)
          rw [horb] at hct
          exact Bool.false_ne_true hct
        rw [alookup_isSome_iff_mem_keys]
        constructor
        · rintro (h | h)
          · by_contra hjm
            exact hnotf ⟨h, hjm⟩
          · exact h.1
        · intro hmem
          by_cases htbl : id ∈ tbl.map Prod.fst
          · exact Or.inl htbl
          · exact Or.inr ⟨hmem, (hrows_none id).mpr htbl⟩
  · intro j hj htbl
    simp only [reconcileState]
    rw [alookup_filter_contains]
    have hfk : ((tbl.map Prod.fst).filter
        (fun k => !((jobs.map (fun j => j.id)).contains k))).contains j.id
          = false := by
      cases hc : ((tbl.map Prod.fst).filter
          (fun k => !((jobs.map (fun j => j.id)).contains k))).contains j.id
      · rfl
      · have hmemf := List.mem_filter.1 (List.elem_iff.mp hc)
        have : (jobs.map (fun j => j.id)).contains j.id = true :=
          List.elem_iff.mpr (List.mem_map.2 ⟨j, hj, rfl⟩)
        rw [this] at hmemf
        exact absurd hmemf.2 (by simp)
    simp only [hfk, Bool.not_false, if_true]
    exact reconcileLoop_inserts_fresh tbl nowMs jobs tbl j hnodup hj htbl htbl

/-- Witness for C2 at one config job "a" and one orphan row "b": after
reconciliation "a" has a now-stamped initial row and "b" is gone. -/
theorem reconcile_aligns_job_ids_witness :
    (alookup (reconcileState [jobA] [("b", sampleRow)] 7).2 "a").isSome ∧
    ¬ (alookup (reconcileState [jobA] [("b", sampleRow)] 7).2 "b").isSome ∧
    alookup (reconcileState [jobA] [("b", sampleRow)] 7).2 "a"
      = some (rowFromJob { jobA with created_at_ms := 7, updated_at_ms := 7 }) := by
  have h := reconcile_aligns_job_ids [jobA] [("b", sampleRow)] 7 (by simp)
  refine ⟨(h.1 "a").2 (by simp [jobA]), ?_, h.2 jobA (by simp) rfl⟩
  intro hb
  have := (h.1 "b").1 hb
  simp [jobA] at this

/-- C3: the config file is rewritten — atomically, by writing the temp
file and renaming it over scheduler.yaml — on every Create, Patch and
Delete of a job, and never by a per-run state change: saving an
already-known job updates the jobs dict and the state table only,
leaving the YAML file and its file-system trace untouched. Patch is the
spec-modelled registry operation (service/ops.py is not in the provided
sources). -/
theorem config_write_discipline (st : StoreState) (job : ScheduledJob)
    (jobId : String) (patch : JobPatch) (nowMs : Int) :
    (alookup st.jobs job.id = none →
      yamlRewrittenOnce st (createOp nowMs job st)) ∧
    ((alookup st.jobs job.id).isSome = true →
      yamlUntouched st (storeSave nowMs job st)) ∧
    ((alookup st.jobs jobId).isSome = true →
      yamlRewrittenOnce st (storeDelete jobId st).2) ∧
    (∀ job0, alookup st.jobs jobId = some job0 → job0.id = jobId →
      yamlRewrittenOnce st (patchOp nowMs jobId patch st)) := by
  refine ⟨?_, ?_, ?_, ?_⟩
  · intro h
    simp [createOp, storeSave, writeYaml, yamlRewrittenOnce, h]
  · intro h
    have hnn : ¬ (alookup st.jobs job.id).isNone = true := by
      cases hl : alookup st.jobs job.id
      · rw [hl] at h; simp at h
      · simp
    constructor <;> simp [storeSave, hnn]
  · intro h
    have hnn : ¬ (alookup st.jobs jobId).isNone = true := by
      cases hl : alookup st.jobs jobId
      · rw [hl] at h; simp at h
      · simp
    simp [storeDelete, writeYaml, yamlRewrittenOnce, hnn]
  · intro job0 hjob hid
    have happ : (patch.applyTo job0 nowMs).id = job0.id := rfl
    simp only [patchOp, hjob]
    by_cases hps : patch.schedule.isSome = true <;>
      simp [storeSave, exportToYaml, writeYaml, yamlRewrittenOnce, hps, happ,
        hid, hjob]

/-- Witness for C3: create on a fresh id, per-run save of the known job,
delete, and patch, each at a concrete store. -/
theorem config_write_discipline_witness :
    yamlRewrittenOnce {} (createOp 1 jobA {}) ∧
    yamlUntouched exampleStore (storeSave 5 jobA exampleStore) ∧
    yamlRewrittenOnce exampleStore (storeDelete "a" exampleStore).2 ∧
    yamlRewrittenOnce exampleStore (patchOp 5 "a" {} exampleStore) :=
  ⟨(config_write_discipline {} jobA "a" {} 1).1 rfl,
   (config_write_discipline exampleStore jobA "a" {} 5).2.1 rfl,
   (config_write_discipline exampleStore jobA "a" {} 5).2.2.1 rfl,
   (config_write_discipline exampleStore jobA "a" {} 5).2.2.2 jobA rfl rfl⟩

/-- Witness for the amended C8: a computable step expression is
accepted; a malformed literal field and a malformed step field are
rejected. -/
theorem validate_cron_amended_witness :
    validate_cron_expression "*/30 * * * *" = true ∧
    validate_cron_expression "0 9a * * *" = false ∧
    validate_cron_expression "*/x * * * *" = false :=
  ⟨validate_cron_amended.1 "*/30 * * * *" "Asia/Shanghai" 1705298400000
      (by decide),
   validate_cron_amended.2.1 "0 9a * * *" "9a" (by decide) (by decide)
      (by decide) (by decide) (by decide) (by decide) (by decide) (by decide),
   validate_cron_amended.2.2 "*/x * * * *" "*/x" (by decide) (by decide)
      (by decide) (by decide) (by decide)⟩

/-! ### Round-trip lemmas (C5) -/

lemma schedule_from_to (s : Schedule) :
    scheduleFromDict (scheduleToDict s) = .ok s := by
  cases s <;> simp [scheduleFromDict, scheduleToDict, getStr, getInt, alookup]

lemma taskChain_from_to (p : TaskChainPayload) :
    taskChainFromDict (taskChainToDict p) = p := by
  obtain ⟨nid, sts⟩ := p
  simp [taskChainFromDict, taskChainToDict, getStr, getStrList, alookup,
    List.map_map]
  induction sts with
  | nil => rfl
  | cons a t ih => simpa using ih

lemma payload_from_to (p : Payload) :
    payloadFromDict (payloadToDict p) = .ok p := by
  cases p with
  | task_chain tc =>
      have h := taskChain_from_to tc
      simp only [payloadToDict, taskChainToDict] at h ⊢
      simp [payloadFromDict, getStr, alookup, h]
  | _ =>
      simp [payloadFromDict, payloadToDict, getStr, getInt, getDict, alookup]

lemma target_from_to (t : SessionTarget) (h : t.kind = .main) :
    targetFromDict (targetToDict t) = t := by
  obtain ⟨k, th, tr⟩ := t
  subst h
  simp [targetFromDict, targetToDict, getStr, getBool, alookup]

lemma scheduleToDict_truthy (s : Schedule) :
    vtruthy (.dict (scheduleToDict s)) = true := by
  cases s <;> rfl

lemma payloadToDict_truthy (p : Payload) :
    vtruthy (.dict (payloadToDict p)) = true := by
  cases p <;> rfl

lemma alookup_ite_singleton {α : Type} (c : Prop) [Decidable c]
    (k : String) (v : α) (key : String) :
    alookup (if c then [(k, v)] else []) key
      = if c ∧ k = key then some v else none := by
  split
  · rename_i hc
    rw [alookup_cons]
    by_cases hk : k = key
    · rw [if_pos hk, if_pos ⟨hc, hk⟩]
    · rw [if_neg hk, if_neg (fun h => hk h.2)]
      rfl
  · rename_i hc
    rw [if_neg (fun h => hc h.1)]
    rfl

lemma alookup_ite_singleton_flip {α : Type} (c : Prop) [Decidable c]
    (k : String) (v : α) (key : String) :
    alookup (if c then [] else [(k, v)]) key
      = if ¬ c ∧ k = key then some v else none := by
  split
  · rename_i hc
    rw [if_neg (fun h => h.1 hc)]
    rfl
  · rename_i hc
    rw [alookup_cons]
    by_cases hk : k = key
    · rw [if_pos hk, if_pos ⟨hc, hk⟩]
    · rw [if_neg hk, if_neg (fun h => hk h.2)]
      rfl

lemma jobdict_lookup_id (j : ScheduledJob) :
    alookup (jobToYamlDict j) "id" = some (.str j.id) := by
  simp [jobToYamlDict, alookup_append, alookup_ite_singleton, alookup_ite_singleton_flip, alookup_cons,
    alookup]

lemma jobdict_lookup_name (j : ScheduledJob) :
    alookup (jobToYamlDict j) "name" = some (.str j.name) := by
  simp [jobToYamlDict, alookup_append, alookup_ite_singleton, alookup_ite_singleton_flip, alookup_cons,
    alookup]

lemma jobdict_lookup_desc (j : ScheduledJob) :
    alookup (jobToYamlDict j) "description"
      = if j.description ≠ "" then some (.str j.description) else none := by
  by_cases hd : j.description = "" <;>
    simp [jobToYamlDict, alookup_append, alookup_ite_singleton, alookup_ite_singleton_flip, alookup_cons,
      alookup, hd]

lemma jobdict_lookup_enabled (j : ScheduledJob) :
    alookup (jobToYamlDict j) "enabled" = some (.bool j.enabled) := by
  by_cases hd : j.description = "" <;>
    simp [jobToYamlDict, alookup_append, alookup_ite_singleton, alookup_ite_singleton_flip, alookup_cons,
      alookup, hd]

lemma jobdict_lookup_uid (j : ScheduledJob) :
    alookup (jobToYamlDict j) "user_id"
      = if j.user_id ≠ "" then some (.str j.user_id) else none := by
  by_cases hu : j.user_id = "" <;>
    simp [jobToYamlDict, alookup_append, alookup_ite_singleton, alookup_ite_singleton_flip, alookup_cons,
      alookup, hu]

lemma jobdict_lookup_aid (j : ScheduledJob) :
    alookup (jobToYamlDict j) "agent_id"
      = if j.agent_id ≠ "" ∧ j.agent_id ≠ "main" then some (.str j.agent_id)
        else none := by
  by_cases ha : j.agent_id ≠ "" ∧ j.agent_id ≠ "main" <;>
    simp [jobToYamlDict, alookup_append, alookup_ite_singleton, alookup_ite_singleton_flip, alookup_cons,
      alookup, ha]

lemma jobdict_lookup_schedule (j : ScheduledJob) :
    alookup (jobToYamlDict j) "schedule"
      = some (.dict (scheduleToDict j.schedule)) := by
  simp [jobToYamlDict, alookup_append, alookup_ite_singleton, alookup_ite_singleton_flip, alookup_cons,
    alookup]

lemma jobdict_lookup_payload (j : ScheduledJob) :
    alookup (jobToYamlDict j) "payload"
      = some (.dict (payloadToDict j.payload)) := by
  simp [jobToYamlDict, alookup_append, alookup_ite_singleton, alookup_ite_singleton_flip, alookup_cons,
    alookup]

lemma targetToDict_kind (t : SessionTarget) :
    getStr (targetToDict t) "kind" ""
      = (match t.kind with
          | .main => "main"
          | .isolated => "isolated") := by
  obtain ⟨k, th, tr⟩ := t
  cases k <;> rfl

lemma jobdict_lookup_target (j : ScheduledJob) :
    alookup (jobToYamlDict j) "target"
      = if j.target.kind = .main then some (.dict (targetToDict j.target))
        else none := by
  cases hk : j.target.kind <;>
    simp [jobToYamlDict, alookup_append, alookup_ite_singleton, alookup_ite_singleton_flip, alookup_cons,
      alookup, targetToDict_kind, hk]

lemma jobdict_lookup_mr (j : ScheduledJob) :
    alookup (jobToYamlDict j) "max_retries"
      = if j.max_retries ≠ 3 then some (.int j.max_retries) else none := by
  by_cases hm : j.max_retries = 3 <;>
    simp [jobToYamlDict, alookup_append, alookup_ite_singleton, alookup_ite_singleton_flip, alookup_cons,
      alookup, hm]

lemma jobdict_lookup_rd (j : ScheduledJob) :
    alookup (jobToYamlDict j) "retry_delay_ms"
      = if j.retry_delay_ms ≠ 60000 then some (.int j.retry_delay_ms)
        else none := by
  by_cases hr : j.retry_delay_ms = 60000 <;>
    simp [jobToYamlDict, alookup_append, alookup_ite_singleton, alookup_ite_singleton_flip, alookup_cons,
      alookup, hr]

lemma jobdict_lookup_oc (j : ScheduledJob) :
    alookup (jobToYamlDict j) "on_complete"
      = if ¬ j.on_complete.isEmpty then
          some (.list (j.on_complete.map (fun p => .dict (taskChainToDict p))))
        else none := by
  by_cases ho : j.on_complete.isEmpty <;>
    simp [jobToYamlDict, alookup_append, alookup_ite_singleton, alookup_ite_singleton_flip, alookup_cons,
      alookup, ho]

/-- C5 counterexample: parsing `roundTripInputDict` and re-emitting it
loses both the unknown field `custom_note` and the explicitly-written
default `max_retries: 3`, so the round-tripped file is not equivalent to
the input modulo key ordering. -/
theorem config_roundtrip_counterexample :
    (yamlDictToJob "fresh" roundTripInputDict).map
        (fun j => alookup (jobToYamlDict j) "custom_note") = .ok none ∧
    alookup roundTripInputDict "custom_note" = some (.str "keep me") ∧
    (yamlDictToJob "fresh" roundTripInputDict).map
        (fun j => alookup (jobToYamlDict j) "max_retries") = .ok none ∧
    alookup roundTripInputDict "max_retries" = some (.int 3) :=
  ⟨rfl, rfl, rfl, rfl⟩

lemma except_bind_ok {ε α β : Type} (a : α) (f : α → Except ε β) :
    (Except.ok a : Except ε α) >>= f = f a := rfl

lemma matchOptStr (c : Prop) [Decidable c] (s dflt : String) :
    (match (if c then some (Val.str s) else none) with
      | some (Val.str x) => x
      | _ => dflt) = if c then s else dflt := by
  by_cases hc : c <;> simp [hc]

lemma matchOptInt (c : Prop) [Decidable c] (n dflt : Int) :
    (match (if c then some (Val.int n) else none) with
      | some (Val.int x) => x
      | _ => dflt) = if c then n else dflt := by
  by_cases hc : c <;> simp [hc]

lemma matchOptStrFlip (c : Prop) [Decidable c] (s dflt : String) :
    (match (if c then none else some (Val.str s)) with
      | some (Val.str x) => x
      | _ => dflt) = if c then dflt else s := by
  by_cases hc : c <;> simp [hc]

lemma matchOptIntFlip (c : Prop) [Decidable c] (n dflt : Int) :
    (match (if c then none else some (Val.int n)) with
      | some (Val.int x) => x
      | _ => dflt) = if c then dflt else n := by
  by_cases hc : c <;> simp [hc]

lemma ite_ne_left {α : Type} [DecidableEq α] (s d : α) :
    (if s ≠ d then s else d) = s := by
  by_cases h : s = d <;> simp [h]

lemma ite_eq_left {α : Type} [DecidableEq α] (s d : α) :
    (if s = d then d else s) = s := by
  by_cases h : s = d <;> simp [h]

lemma targetToDict_truthy (t : SessionTarget) :
    vtruthy (.dict (targetToDict t)) = true := rfl

lemma vtruthy_list_map {α : Type} (f : α → Val) (l : List α) :
    vtruthy (Val.list (l.map f)) = !l.isEmpty := by
  cases l <;> rfl

lemma oc_roundtrip (l : List TaskChainPayload) :
    List.map ((fun pv => match pv with
          | Val.dict pd => taskChainFromDict pd
          | _ => taskChainFromDict [])
        ∘ fun p => Val.dict (taskChainToDict p)) l = l := by
  induction l with
  | nil => rfl
  | cons a t ih => simp [ih, taskChain_from_to]

set_option maxHeartbeats 1000000 in
/-- Parsing a dict the writer produced yields the job's normal form:
all config fields survive except the documented defaultings of
`normalizeJob`. -/
lemma yamlDictToJob_writer (freshId : String) (j : ScheduledJob) :
    yamlDictToJob freshId (jobToYamlDict j) = .ok (normalizeJob j) := by
  cases hk : j.target.kind with
  | main =>
      by_cases hoc : j.on_complete.isEmpty = true
      · simp [yamlDictToJob, jobdict_lookup_id, jobdict_lookup_name,
          jobdict_lookup_desc, jobdict_lookup_enabled, jobdict_lookup_uid,
          jobdict_lookup_aid, jobdict_lookup_schedule, jobdict_lookup_payload,
          jobdict_lookup_target, jobdict_lookup_mr, jobdict_lookup_rd,
          jobdict_lookup_oc, getStr, getBool, getInt, matchOptStr, matchOptInt,
          matchOptStrFlip, matchOptIntFlip, ite_ne_left, ite_eq_left,
          scheduleToDict_truthy, payloadToDict_truthy,
          targetToDict_truthy, vtruthy_list_map, schedule_from_to,
          payload_from_to,
          target_from_to _ hk, oc_roundtrip, normalizeJob, hk, hoc,
          except_bind_ok, List.isEmpty_iff.1 hoc]
      · simp [yamlDictToJob, jobdict_lookup_id, jobdict_lookup_name,
          jobdict_lookup_desc, jobdict_lookup_enabled, jobdict_lookup_uid,
          jobdict_lookup_aid, jobdict_lookup_schedule, jobdict_lookup_payload,
          jobdict_lookup_target, jobdict_lookup_mr, jobdict_lookup_rd,
          jobdict_lookup_oc, getStr, getBool, getInt, matchOptStr, matchOptInt,
          matchOptStrFlip, matchOptIntFlip, ite_ne_left, ite_eq_left,
          scheduleToDict_truthy, payloadToDict_truthy,
          targetToDict_truthy, vtruthy_list_map, schedule_from_to,
          payload_from_to,
          target_from_to _ hk, oc_roundtrip, normalizeJob, hk, hoc,
          except_bind_ok]
  | isolated =>
      by_cases hoc : j.on_complete.isEmpty = true
      · simp [yamlDictToJob, jobdict_lookup_id, jobdict_lookup_name,
          jobdict_lookup_desc, jobdict_lookup_enabled, jobdict_lookup_uid,
          jobdict_lookup_aid, jobdict_lookup_schedule, jobdict_lookup_payload,
          jobdict_lookup_target, jobdict_lookup_mr, jobdict_lookup_rd,
          jobdict_lookup_oc, getStr, getBool, getInt, matchOptStr, matchOptInt,
          matchOptStrFlip, matchOptIntFlip, ite_ne_left, ite_eq_left,
          scheduleToDict_truthy, payloadToDict_truthy,
          targetToDict_truthy, vtruthy_list_map, schedule_from_to,
          payload_from_to,
          oc_roundtrip, normalizeJob, hk, hoc,
          except_bind_ok, List.isEmpty_iff.1 hoc]
      · simp [yamlDictToJob, jobdict_lookup_id, jobdict_lookup_name,
          jobdict_lookup_desc, jobdict_lookup_enabled, jobdict_lookup_uid,
          jobdict_lookup_aid, jobdict_lookup_schedule, jobdict_lookup_payload,
          jobdict_lookup_target, jobdict_lookup_mr, jobdict_lookup_rd,
          jobdict_lookup_oc, getStr, getBool, getInt, matchOptStr, matchOptInt,
          matchOptStrFlip, matchOptIntFlip, ite_ne_left, ite_eq_left,
          scheduleToDict_truthy, payloadToDict_truthy,
          targetToDict_truthy, vtruthy_list_map, schedule_from_to,
          payload_from_to,
          oc_roundtrip, normalizeJob, hk, hoc,
          except_bind_ok]

/-- Re-emitting the parse normal form reproduces the writer's dict. -/
lemma jobToYamlDict_normalize (j : ScheduledJob) :
    jobToYamlDict (normalizeJob j) = jobToYamlDict j := by
  by_cases ha : j.agent_id ≠ "" ∧ j.agent_id ≠ "main" <;>
    cases hk : j.target.kind <;>
      simp [jobToYamlDict, normalizeJob, targetToDict, getStr, alookup,
        ha, hk]

/-- C5 amended: Read-then-Write is idempotent on files the writer itself
produced — parsing a written job dict and re-emitting it reproduces the
dict exactly — but a general input dict is NOT preserved: unknown
fields, explicitly-written default values, and an isolated target's
flags are dropped (see the counterexample). -/
theorem config_roundtrip_writer_stable (freshId : String) (j : ScheduledJob) :
    (yamlDictToJob freshId (jobToYamlDict j)).map jobToYamlDict
      = .ok (jobToYamlDict j) := by
  rw [yamlDictToJob_writer freshId j]
  show Except.ok (jobToYamlDict (normalizeJob j)) = _
  rw [jobToYamlDict_normalize]

end AgenticaScheduler
